import Mathlib

/-!
Verification of the module ingestion core of the pkgsite repository.

The development shallowly embeds the fetch pipeline of
`src/internal/fetch/fetch.go` (phase-1 metadata pass, phase-2 content pass,
readme extraction, module assembly and `FetchModule`) together with models of
the external helpers it calls (Go `path` and `strings` functions,
`golang.org/x/mod/module.CheckImportPath`).  Code of the repository that is
not part of the source slice (the `derrors` status table, the frontend
`candidateModulePaths` and `fetchAndPoll`) is modelled from the specification
and marked as such on each definition.

All definitions are structurally recursive and executable, so concrete runs
of the pipeline can be settled by `decide` / `rfl`.
-/

set_option autoImplicit false

namespace Pkgsite

/-- Decidable equality for `Except`, used to settle concrete pipeline runs by
`decide`. -/
instance instDecEqExcept {ε α : Type} [DecidableEq ε] [DecidableEq α] :
    DecidableEq (Except ε α) := fun a b =>
  match a, b with
  | .error x, .error y =>
    if h : x = y then isTrue (by rw [h]) else isFalse (fun he => h (by injection he))
  | .ok x, .ok y =>
    if h : x = y then isTrue (by rw [h]) else isFalse (fun he => h (by injection he))
  | .error _, .ok _ => isFalse (fun he => Except.noConfusion he)
  | .ok _, .error _ => isFalse (fun he => Except.noConfusion he)

/-! ### String helpers

Models of the Go standard library string operations used by the fetch code.
They operate on the character list underlying a `String` so that every
function reduces inside the kernel. -/

/-- Splits a character list on the slash character, mirroring
`strings.Split(s, "/")`: the result always has one more element than the
number of slashes, and empty pieces are kept. -/
def splitSegsCh : List Char → List (List Char)
  | [] => [[]]
  | c :: cs =>
    match splitSegsCh cs with
    | [] => [[]]
    | h :: t => if c = '/' then [] :: h :: t else (c :: h) :: t

/-- Splits a string on slashes, mirroring `strings.Split(s, "/")`. -/
def splitSlash (s : String) : List String :=
  (splitSegsCh s.data).map (fun l => ⟨l⟩)

/-- Joins path segments with slashes, mirroring `strings.Join(l, "/")`. -/
def joinPath : List String → String
  | [] => ""
  | [s] => s
  | s :: rest => s ++ "/" ++ joinPath rest

/-- Reports whether `pre` occurs as a contiguous sublist of `s`, mirroring
`strings.Contains`. -/
def containsSub (s pat : List Char) : Bool :=
  match s with
  | [] => pat.isEmpty
  | _ :: rest => pat.isPrefixOf s || containsSub rest pat

/-- Mirrors `strings.HasPrefix(s, pre)`. -/
def startsWithStr (s pre : String) : Bool :=
  pre.data.isPrefixOf s.data

/-- Mirrors `strings.HasSuffix(s, suf)`. -/
def endsWithStr (s suf : String) : Bool :=
  suf.data.isSuffixOf s.data

/-- Mirrors `strings.TrimPrefix(s, pre)`. -/
def trimPre (s pre : String) : String :=
  if startsWithStr s pre then ⟨s.data.drop pre.data.length⟩ else s

/-- Mirrors `strings.TrimSuffix(s, suf)`. -/
def trimSuf (s suf : String) : String :=
  if endsWithStr s suf then ⟨s.data.take (s.data.length - suf.data.length)⟩ else s

/-- ASCII lower-casing of a character; the readme name comparison only ever
folds ASCII letters. -/
def asciiLower (c : Char) : Char :=
  if 'A' ≤ c && c ≤ 'Z' then Char.ofNat (c.toNat + 32) else c

/-- Mirrors `strings.EqualFold` restricted to ASCII folding, which is all the
fetch code exercises (the strings compared are file base names and the
constant `README`). -/
def eqFold (a b : String) : Bool :=
  a.data.map asciiLower = b.data.map asciiLower

/-! ### Path helpers

Models of `path.Base`, `path.Ext`, `path.Dir` and `path.Join` from the Go
standard library.  `Dir` and `Join` clean their result; the model removes
empty and `.` segments, which is all of `path.Clean` that module zip entry
names can reach (`..` elements are rejected by the import-path check before
any cleaned path is used). -/

/-- Segments of a cleaned path: empty pieces and `.` pieces are dropped. -/
def cleanSegs (l : List String) : List String :=
  l.filter (fun seg => seg ≠ "" && seg ≠ ".")

/-- Mirrors `path.Dir`: everything before the final slash, cleaned; `.` when
there is no slash. -/
def pathDir (s : String) : String :=
  let segs := cleanSegs (splitSlash s).dropLast
  if segs.isEmpty then "." else joinPath segs

/-- Mirrors `path.Join(a, b)` for two elements: empty elements are skipped and
the result is cleaned. -/
def pathJoin (a b : String) : String :=
  joinPath (cleanSegs (splitSlash a ++ splitSlash b))

/-- Mirrors `path.Base`: the last element of the path after trailing slashes
are removed; `.` for the empty string, `/` for a path of slashes only. -/
def pathBase (s : String) : String :=
  if s = "" then "."
  else
    let cs := (s.data.reverse.dropWhile (· = '/')).reverse
    if cs.isEmpty then "/"
    else
      match (splitSegsCh cs).getLast? with
      | some l => ⟨l⟩
      | none => "/"

/-- Mirrors `path.Ext`: the suffix of the final path element starting at its
final dot, or the empty string when the final element has no dot. -/
def pathExt (s : String) : String :=
  let rev := s.data.reverse.takeWhile (· ≠ '/')
  let ext := rev.takeWhile (· ≠ '.')
  if ext.length = rev.length then ""
  else ⟨'.' :: ext.reverse⟩

/-! ### Import path validation

Model of `golang.org/x/mod/module.CheckImportPath` (an external dependency of
`fetch.go`).  The rules follow `checkPath`/`checkElem` for the import-path
kind: nonempty, no leading dash, no double or trailing slash, and every
element nonempty, not all dots, without trailing dot, made of allowed
characters, and not a reserved Windows name.  Non-ASCII letters, which the
real checker admits via `unicode.IsLetter`, are rejected by the model; no
claim involves non-ASCII paths.  Error messages are nonempty constants
standing for the nonempty messages of the real checker. -/

/-- Characters allowed in an import path element (the ASCII case of
`fileNameOK`). -/
def importPathOKChar (c : Char) : Bool :=
  ('0' ≤ c && c ≤ '9') || ('A' ≤ c && c ≤ 'Z') || ('a' ≤ c && c ≤ 'z') ||
    ['!', '#', '$', '%', '&', '(', ')', '+', ',', '-', '.', '=', '@',
      '[', ']', '^', '_', '\x7b', '\x7d', '~'].contains c

/-- Reserved Windows file names, disallowed as path elements. -/
def badWindowsNames : List String :=
  ["CON", "PRN", "AUX", "NUL",
    "COM1", "COM2", "COM3", "COM4", "COM5", "COM6", "COM7", "COM8", "COM9",
    "LPT1", "LPT2", "LPT3", "LPT4", "LPT5", "LPT6", "LPT7", "LPT8", "LPT9"]

/-- Checks one path element for the import-path kind, returning an error
message on failure. -/
def checkElemIP (elem : List Char) : Option String :=
  if elem.isEmpty then some "malformed import path: empty path element"
  else if elem.all (· = '.') then some "malformed import path: invalid path element"
  else if elem.getLast? = some '.' then some "malformed import path: trailing dot in path element"
  else if !elem.all importPathOKChar then some "malformed import path: invalid char"
  else
    let short := elem.takeWhile (· ≠ '.')
    if badWindowsNames.any (fun bad => eqFold bad ⟨short⟩) then
      some "malformed import path: disallowed path element"
    else none

/-- Model of `module.CheckImportPath`: returns `none` when the path is a
valid import path and an error message otherwise. -/
def checkImportPath (p : String) : Option String :=
  let cs := p.data
  if cs.isEmpty then some "malformed import path: empty string"
  else if cs.head? = some '-' then some "malformed import path: leading dash"
  else if containsSub cs ['/', '/'] then some "malformed import path: double slash"
  else if cs.getLast? = some '/' then some "malformed import path: trailing slash"
  else (splitSegsCh cs).findSome? checkElemIP

/-! ### Error taxonomy

Modelled from the spec: the `derrors` package is not part of the source
slice; only its callers are.  The kinds and the HTTP-style codes follow the
table of spec section 6 (OK 200, HasIncompletePackages 290, NotFound 404,
BadRequest 400, ProxyTimedOut 408, BadModule 490, AlternativeModule 491).
The spec fixes no numeric values for the per-package statuses beyond their
being distinct site-internal non-200 codes, so the model assigns 470-474.
Errors that the taxonomy does not classify map to 500. -/

inductive ErrKind where
  | notFound
  | badRequest
  | proxyTimedOut
  | hasIncompletePackages
  | badModule
  | alternativeModule
  | packageBadImportPath
  | packageInvalidContents
  | packageBuildContextNotSupported
  | packageMaxFileSizeLimitExceeded
  | packageDocumentationHTMLTooLarge
  | internalError
  deriving DecidableEq, Repr

/-- Modelled from the spec: `derrors.ToStatus` on a non-nil error of the
given kind. -/
def toStatus : ErrKind → Nat
  | .notFound => 404
  | .badRequest => 400
  | .proxyTimedOut => 408
  | .hasIncompletePackages => 290
  | .badModule => 490
  | .alternativeModule => 491
  | .packageBadImportPath => 470
  | .packageInvalidContents => 471
  | .packageBuildContextNotSupported => 472
  | .packageMaxFileSizeLimitExceeded => 473
  | .packageDocumentationHTMLTooLarge => 474
  | .internalError => 500

/-! ### Data model of the fetch pipeline -/

/-- One entry of the module zip archive: the name, whether the entry is a
directory, the uncompressed size recorded in the entry header, and the bytes
produced by reading the entry.  Size and contents are independent fields, as
they are in a zip file. -/
structure ZipEntry where
  name : String
  isDir : Bool := false
  uncompressedSize : Nat := 0
  contents : String := ""
  deriving DecidableEq, Repr

/-- Mirrors `internal.PackageVersionState`. -/
structure PackageVersionState where
  modulePath : String
  packagePath : String
  version : String
  status : Nat
  error : String
  deriving DecidableEq, Repr

/-- The numeric limits used by the fetch code.  The Go source reads them from
package-level variables of `fetch` and `frontend` (defined outside the source
slice and mutated by tests); the model threads them as an explicit
configuration, as the spec's design notes prescribe. -/
structure Limits where
  maxFileSize : Nat
  maxPackagesPerModule : Nat
  maxImportsPerPackage : Nat
  maxDocumentationHTML : Nat
  deriving Repr

/-- Mirrors `internal.LegacyPackage` in the fields the fetch code produces.
The `V1Path` field is omitted: it is computed by `internal.V1Path`, outside
the source slice, and no claim mentions it. -/
structure LegacyPackage where
  path : String
  name : String
  synopsis : String
  imports : List String
  documentationHTML : String
  goos : String
  goarch : String
  isRedistributable : Bool := false
  licenses : List String := []
  deriving DecidableEq, Repr

/-- Model of the license detector built by `licenses.NewDetector` (external
to the source slice): the three queries the fetch code makes of it. -/
structure Detector where
  allLicenses : List String
  moduleRedist : Bool
  packageInfo : String → Bool × List String

/-- Mirrors `moduleVersionDir` of fetch.go. -/
def moduleVersionDir (modulePath version : String) : String :=
  modulePath ++ "@" ++ version

/-- Mirrors `excludedReadmeExts` of fetch.go. -/
def excludedReadmeExts : List String := [".go", ".vendor"]

/-- Mirrors `isReadme` of fetch.go: the base name without its extension
equals README case-insensitively and the extension is not excluded. -/
def isReadme (file : String) : Bool :=
  let base := pathBase file
  let ext := pathExt base
  !(excludedReadmeExts.contains ext) && eqFold (trimSuf base ext) "README"

/-- Mirrors `ignoredByGoTool` of fetch.go: some path segment begins with a
dot or an underscore or equals testdata. -/
def ignoredByGoTool (importPath : String) : Bool :=
  (splitSlash importPath).any fun el =>
    startsWithStr el "." || startsWithStr el "_" || el = "testdata"

/-- Mirrors `isVendored` of fetch.go. -/
def isVendored (importPath : String) : Bool :=
  startsWithStr importPath "vendor/" || containsSub importPath.data "/vendor/".data

/-! ### Phase 1 of `extractPackagesFromZip`

The metadata pass of fetch.go lines 348-416: loop over the zip entries,
populate the map from directory to its `.go` files, record incomplete
directories, and emit `PackageVersionState`s for rejected files.  The `dirs`
map is modelled as an insertion-ordered association list with unique keys
(the number of keys equals `len(dirs)` of the Go map; Go map iteration order
is unspecified, insertion order is one admissible order and no claim depends
on it). -/

/-- Module-level failures of `extractPackagesFromZip`.  The Go code signals
them through distinguished error values: `errMalformedZip` and
`errModuleContainsNoPackages` are sentinel errors that `processZipFile`
recognises with `errors.Is`, while the too-many-packages failure and the
unexpected-load failure are plain `fmt.Errorf` errors that it does not. -/
inductive ExtractErr where
  | malformedZip (msg : String)
  | tooManyPackages (msg : String)
  | noPackages
  | loadError (msg : String)
  deriving DecidableEq, Repr

/-- Appends a file to the entry of `key` in the ordered association list, or
adds a new key at the end, mirroring `dirs[innerPath] = append(...)`. -/
def dirsAppend (dirs : List (String × List ZipEntry)) (key : String) (f : ZipEntry) :
    List (String × List ZipEntry) :=
  match dirs with
  | [] => [(key, [f])]
  | (k, fs) :: rest =>
    if k = key then (k, fs ++ [f]) :: rest else (k, fs) :: dirsAppend rest key f

/-- State threaded through the phase-1 loop: the `dirs` map, the set of
incomplete directories and the states emitted so far. -/
structure Phase1State where
  dirs : List (String × List ZipEntry) := []
  incompleteDirs : List String := []
  pvs : List PackageVersionState := []
  deriving DecidableEq, Repr

/-- One iteration of the phase-1 loop of `extractPackagesFromZip` for the
entry `f`, mirroring fetch.go lines 353-413 check for check. -/
def phase1Step (lim : Limits) (modulePath resolvedVersion : String)
    (st : Phase1State) (f : ZipEntry) : Except ExtractErr Phase1State :=
  if f.isDir then .ok st
  else if !startsWithStr f.name (moduleVersionDir modulePath resolvedVersion ++ "/") then
    .error (.malformedZip ("expected file to have module version dir as path start; got " ++ f.name))
  else
    let modVerDirSl := moduleVersionDir modulePath resolvedVersion ++ "/"
    let innerPath := pathDir (trimPre f.name modVerDirSl)
    if st.incompleteDirs.contains innerPath then .ok st
    else
      let importPath := pathJoin modulePath innerPath
      if ignoredByGoTool importPath || isVendored importPath then .ok st
      else if !endsWithStr f.name ".go" then .ok st
      else
        match checkImportPath importPath with
        | some msg =>
          .ok { st with
            incompleteDirs := st.incompleteDirs ++ [innerPath],
            pvs := st.pvs ++ [⟨modulePath, importPath, resolvedVersion,
              toStatus .packageBadImportPath, msg⟩] }
        | none =>
          if f.uncompressedSize > lim.maxFileSize then
            .ok { st with
              incompleteDirs := st.incompleteDirs ++ [innerPath],
              pvs := st.pvs ++ [⟨modulePath, importPath, resolvedVersion,
                toStatus .packageMaxFileSizeLimitExceeded,
                "Unable to process " ++ f.name ++ ": file size exceeds max limit"⟩] }
          else
            let dirs := dirsAppend st.dirs innerPath f
            if dirs.length > lim.maxPackagesPerModule then
              .error (.tooManyPackages ("packages found in " ++ modulePath ++
                " exceed limit for maxPackagePerModule"))
            else .ok { st with dirs := dirs }

/-- The whole phase-1 loop over the zip entries. -/
def phase1 (lim : Limits) (modulePath resolvedVersion : String) :
    List ZipEntry → Phase1State → Except ExtractErr Phase1State
  | [], st => .ok st
  | f :: rest, st =>
    match phase1Step lim modulePath resolvedVersion st f with
    | .error e => .error e
    | .ok st2 => phase1 lim modulePath resolvedVersion rest st2

/-! ### Phase 2: `loadPackageWithBuildContext` and `loadPackage`

The content pass parses Go source and renders documentation.  Parsing, build
constraint evaluation and doc extraction are performed by the Go toolchain
libraries (`go/parser`, `go/build`, the vendored `doc` package), external to
the source slice; the model abstracts the per-directory, per-environment
analysis of the `.go` files into an `EnvOutcome` oracle and embeds faithfully
everything `loadPackageWithBuildContext` does downstream of it: the imports
cap, the documentation size cap with the sentinel replacement, and the
shape of the `(package, error)` pair that `loadPackage` then inspects. -/

/-- A build environment, one `(GOOS, GOARCH)` pair. -/
abbrev GoEnv := String × String

/-- Mirrors the `goEnvs` variable of fetch.go: the fixed ordered list of
build environments tried by `loadPackage`. -/
def goEnvs : List GoEnv :=
  [("linux", "amd64"), ("windows", "amd64"), ("darwin", "amd64"),
    ("js", "wasm"), ("linux", "js")]

/-- Outcome of matching, reading and parsing the directory files under one
build environment, up to the point where `loadPackageWithBuildContext` has a
`doc.Package` in hand:
`badPackage` stands for a `*BadPackageError` (failed parse, failed
`MatchFile`, or a package-name conflict); `otherError` for any other error of
those steps; `empty` for no non-test files surviving the build constraints
(the `len(goFiles) == 0` early return); `loaded` for a successful analysis,
carrying the fields the rest of the function consumes. -/
structure LoadedDoc where
  packageName : String
  synopsis : String
  imports : List String
  docHTML : String
  deriving DecidableEq, Repr

inductive EnvOutcome where
  | badPackage (msg : String)
  | otherError (msg : String)
  | empty
  | loaded (d : LoadedDoc)
  deriving DecidableEq, Repr

/-- Mirrors `docTooLargeReplacement` of fetch.go. -/
def docTooLargeReplacement : String := "<p>Documentation is too large to display.</p>"

/-- Stands for the message of the error chain wrapping `dochtml.ErrTooLarge`;
its exact text is immaterial, its nonemptiness is what phase 2 propagates. -/
def docTooLargeErrMsg : String := "rendered documentation HTML size exceeded the limit"

/-- Reserved module path of the standard library (`stdlib.ModulePath`). -/
def stdlibModulePath : String := "std"

/-- Result of `loadPackageWithBuildContext`, which in Go returns a
`(*internal.LegacyPackage, error)` pair: a package with nil error, a package
together with an error wrapping `dochtml.ErrTooLarge`, a nil package with a
`*BadPackageError`, a nil package with another error, or nil-nil. -/
inductive LPResult where
  | pkgOk (p : LegacyPackage)
  | pkgTooLarge (p : LegacyPackage)
  | errBad (msg : String)
  | errOther (msg : String)
  | nothing
  deriving DecidableEq, Repr

/-- Mirrors fetch.go lines 584-749 downstream of the oracle: the imports cap
check, the documentation render with the too-large sentinel substitution, the
standard-library import path special case, and the assembled package. -/
def loadPackageWithBuildContext (lim : Limits) (modulePath innerPath goos goarch : String)
    (outcome : EnvOutcome) : LPResult :=
  match outcome with
  | .badPackage msg => .errBad msg
  | .otherError msg => .errOther msg
  | .empty => .nothing
  | .loaded d =>
    if d.imports.length > lim.maxImportsPerPackage then
      .errOther ("imports found in package exceed limit for maxImportsPerPackage")
    else
      let importPath :=
        if modulePath = stdlibModulePath then innerPath
        else pathJoin modulePath innerPath
      if d.docHTML.length > lim.maxDocumentationHTML then
        .pkgTooLarge ⟨importPath, d.packageName, d.synopsis, d.imports,
          docTooLargeReplacement, goos, goarch, false, []⟩
      else
        .pkgOk ⟨importPath, d.packageName, d.synopsis, d.imports,
          d.docHTML, goos, goarch, false, []⟩

/-- Result of `loadPackage` as phase 2 inspects it. -/
inductive LoadOut where
  | found (p : LegacyPackage) (tooLarge : Bool)
  | failBad (msg : String)
  | failOther (msg : String)
  | nothing
  deriving DecidableEq, Repr

/-- Mirrors the loop body of `loadPackage` (fetch.go lines 552-561) over an
explicit list of environments: a non-too-large error returns immediately, a
non-nil package returns with its error, and otherwise the next environment is
tried. -/
def loadPackageEnvs (lim : Limits) (modulePath innerPath : String)
    (oracle : GoEnv → EnvOutcome) : List GoEnv → LoadOut
  | [] => .nothing
  | env :: rest =>
    match loadPackageWithBuildContext lim modulePath innerPath env.1 env.2 (oracle env) with
    | .errBad msg => .failBad msg
    | .errOther msg => .failOther msg
    | .pkgOk p => .found p false
    | .pkgTooLarge p => .found p true
    | .nothing => loadPackageEnvs lim modulePath innerPath oracle rest

/-- Mirrors `loadPackage` of fetch.go: try the environments of `goEnvs` in
order. -/
def loadPackage (lim : Limits) (modulePath innerPath : String)
    (oracle : GoEnv → EnvOutcome) : LoadOut :=
  loadPackageEnvs lim modulePath innerPath oracle goEnvs

/-! ### Phase 2 of `extractPackagesFromZip`

Mirrors the loop of fetch.go lines 422-477.  Each directory of `dirs` that is
not incomplete is processed: a `*BadPackageError` marks it incomplete with
status `PackageInvalidContents`, a too-large documentation keeps the package
with status `PackageDocumentationHTMLTooLarge`, any other error aborts the
module, and a nil package for a directory that had go files marks it
incomplete with status `PackageBuildContextNotSupported`.  When the package
is nil the `if pkg == nil` block runs after the error classification, so its
status assignment overwrites the `PackageInvalidContents` of a
`*BadPackageError` (whose message is however kept in the emitted state). -/

/-- Outcome of processing one directory in the phase-2 loop: either the whole
module aborts (the `return nil, nil, fmt.Errorf(...)` branch), or a state is
emitted together with an optional package and the incomplete marking. -/
inductive DirOutcome where
  | abort (msg : String)
  | emit (pkg : Option LegacyPackage) (state : PackageVersionState) (markIncomplete : Bool)
  deriving Repr

/-- Attaches license information to a loaded package when a detector is
present, mirroring fetch.go lines 456-462 (`d` is nil only in tests). -/
def applyDetector (det : Option Detector) (innerPath : String) (p : LegacyPackage) :
    LegacyPackage :=
  match det with
  | none => p
  | some d =>
    let info := d.packageInfo innerPath
    { p with isRedistributable := info.1, licenses := p.licenses ++ info.2 }

/-- Mirrors the body of the phase-2 loop for one directory (fetch.go lines
430-476). -/
def processDir (lim : Limits) (modulePath resolvedVersion : String) (det : Option Detector)
    (oracle : String → GoEnv → EnvOutcome) (innerPath : String) (goFiles : List ZipEntry) :
    DirOutcome :=
  match loadPackage lim modulePath innerPath (oracle innerPath) with
  | .failOther msg => .abort ("unexpected error loading package: " ++ msg)
  | .failBad msg =>
    let code :=
      if goFiles.length > 0 then toStatus .packageBuildContextNotSupported
      else toStatus .packageInvalidContents
    .emit none ⟨modulePath, pathJoin modulePath innerPath, resolvedVersion, code, msg⟩ true
  | .nothing =>
    if goFiles.length > 0 then
      .emit none ⟨modulePath, pathJoin modulePath innerPath, resolvedVersion,
        toStatus .packageBuildContextNotSupported, ""⟩ true
    else
      .emit none ⟨modulePath, pathJoin modulePath innerPath, resolvedVersion, 200, ""⟩ false
  | .found p tooLarge =>
    let pkg := applyDetector det innerPath p
    let code := if tooLarge then toStatus .packageDocumentationHTMLTooLarge else 200
    let msg := if tooLarge then docTooLargeErrMsg else ""
    .emit (some pkg) ⟨modulePath, pkg.path, resolvedVersion, code, msg⟩ false

/-- The phase-2 loop over the directories collected in phase 1, threading the
incomplete set, the packages and the emitted states. -/
def phase2 (lim : Limits) (modulePath resolvedVersion : String) (det : Option Detector)
    (oracle : String → GoEnv → EnvOutcome) :
    List (String × List ZipEntry) → List String → List LegacyPackage →
    List PackageVersionState →
    Except ExtractErr (List LegacyPackage × List PackageVersionState)
  | [], _, pkgs, pvs => .ok (pkgs, pvs)
  | (innerPath, goFiles) :: rest, inc, pkgs, pvs =>
    if inc.contains innerPath then phase2 lim modulePath resolvedVersion det oracle rest inc pkgs pvs
    else
      match processDir lim modulePath resolvedVersion det oracle innerPath goFiles with
      | .abort msg => .error (.loadError msg)
      | .emit pkg? state mark =>
        phase2 lim modulePath resolvedVersion det oracle rest
          (if mark then inc ++ [innerPath] else inc)
          (pkgs ++ pkg?.toList) (pvs ++ [state])

/-- Result triple of `extractPackagesFromZip`, mirroring the Go return values
`(packages, packageVersionStates, err)`: on a phase-1 failure both packages
and states are nil, on a module without packages the states are returned
alongside `errModuleContainsNoPackages`, and on success the error is nil. -/
structure ExtractResult where
  pkgs : Option (List LegacyPackage)
  pvs : List PackageVersionState
  err : Option ExtractErr
  deriving Repr

/-- Mirrors `extractPackagesFromZip` of fetch.go: phase 1 over the entries,
phase 2 over the collected directories, and the zero-packages check. -/
def extractPackagesFromZip (lim : Limits) (modulePath resolvedVersion : String)
    (entries : List ZipEntry) (det : Option Detector)
    (oracle : String → GoEnv → EnvOutcome) : ExtractResult :=
  match phase1 lim modulePath resolvedVersion entries {} with
  | .error e => ⟨none, [], some e⟩
  | .ok st =>
    match phase2 lim modulePath resolvedVersion det oracle st.dirs st.incompleteDirs [] st.pvs with
    | .error e => ⟨none, [], some e⟩
    | .ok (pkgs, pvs) =>
      if pkgs.isEmpty then ⟨none, pvs, some .noPackages⟩
      else ⟨some pkgs, pvs, none⟩

/-! ### Readme extraction and `processZipFile` -/

/-- Mirrors `internal.Readme`. -/
structure Readme where
  filepath : String
  contents : String
  deriving DecidableEq, Repr

/-- Mirrors the loop of `extractReadmesFromZip` (fetch.go lines 255-274):
every entry whose name qualifies as a README is size-checked against
`MaxFileSize` and read; a single oversized README fails the whole
extraction.  Reading the entry is modelled by the `contents` field (the
read is capped at `MaxFileSize` bytes, which the preceding size check makes
unobservable). -/
def extractReadmes (lim : Limits) (modulePath resolvedVersion : String) :
    List ZipEntry → List Readme → Except String (List Readme)
  | [], acc => .ok acc
  | f :: rest, acc =>
    if isReadme f.name then
      if f.uncompressedSize > lim.maxFileSize then
        .error ("file size exceeds max limit")
      else
        extractReadmes lim modulePath resolvedVersion rest
          (acc ++ [⟨trimPre f.name (moduleVersionDir modulePath resolvedVersion ++ "/"),
            f.contents⟩])
    else extractReadmes lim modulePath resolvedVersion rest acc

/-- Mirrors `extractReadmesFromZip`. -/
def extractReadmesFromZip (lim : Limits) (modulePath resolvedVersion : String)
    (entries : List ZipEntry) : Except String (List Readme) :=
  extractReadmes lim modulePath resolvedVersion entries []

/-- Mirrors `zipContainsFilename` of fetch.go. -/
def zipContainsFilename (entries : List ZipEntry) (name : String) : Bool :=
  entries.any (fun f => f.name = name)

/-- Mirrors `internal.Module` in the fields the fetch code produces.  The
unit tree built by `moduleUnits` is outside the source slice and no claim
mentions it, so it is omitted. -/
structure ModuleL where
  modulePath : String
  version : String
  isRedistributable : Bool
  hasGoMod : Bool
  readmeFilePath : String
  readmeContents : String
  packages : List LegacyPackage
  licenses : List String
  deriving DecidableEq, Repr

/-- Module-level failures of `processZipFile`.  `badModule` corresponds to an
error wrapping `derrors.BadModule`; the other two are generic errors carrying
only context text. -/
inductive ProcessErr where
  | readmeError (msg : String)
  | badModule (msg : String)
  | extractOther (msg : String)
  deriving DecidableEq, Repr

/-- Mirrors `processZipFile` (fetch.go lines 191-245): extract the readmes,
build the license detector, extract the packages, map the two sentinel
extraction errors to `BadModule` and any other extraction error to a generic
error, compute `hasGoMod`, pick the module-root readme, and assemble the
module.  The source-info lookup only feeds documentation links and logging
and is absorbed by the phase-2 oracle; the detector construction is external
and is passed in. -/
def processZipFile (lim : Limits) (modulePath resolvedVersion : String)
    (entries : List ZipEntry) (det : Detector)
    (oracle : String → GoEnv → EnvOutcome) :
    Except ProcessErr (ModuleL × List PackageVersionState) :=
  match extractReadmesFromZip lim modulePath resolvedVersion entries with
  | .error msg => .error (.readmeError ("extractReadmesFromZip: " ++ msg))
  | .ok readmes =>
    let r := extractPackagesFromZip lim modulePath resolvedVersion entries (some det) oracle
    match r.err with
    | some (.noPackages) => .error (.badModule "module contains 0 packages")
    | some (.malformedZip msg) => .error (.badModule msg)
    | some (.tooManyPackages msg) => .error (.extractOther ("extractPackagesFromZip: " ++ msg))
    | some (.loadError msg) => .error (.extractOther ("extractPackagesFromZip: " ++ msg))
    | none =>
      let hasGoMod := zipContainsFilename entries
        (pathJoin (moduleVersionDir modulePath resolvedVersion) "go.mod")
      let rootReadme := readmes.find? (fun rm => pathDir rm.filepath = ".")
      .ok ({ modulePath := modulePath
             version := resolvedVersion
             isRedistributable := det.moduleRedist
             hasGoMod := hasGoMod
             readmeFilePath := (rootReadme.map (·.filepath)).getD ""
             readmeContents := (rootReadme.map (·.contents)).getD ""
             packages := r.pkgs.getD []
             licenses := det.allLicenses }, r.pvs)

/-- Reports whether a `processZipFile` result is an error wrapping
`derrors.BadModule`. -/
def isBadModuleResult : Except ProcessErr (ModuleL × List PackageVersionState) → Bool
  | .error (.badModule _) => true
  | _ => false

/-- Reports whether a `processZipFile` result is an error at all. -/
def isErrorResult : Except ProcessErr (ModuleL × List PackageVersionState) → Bool
  | .error _ => true
  | _ => false

/-! ### `FetchModule`

Mirrors `FetchModule` of fetch.go lines 112-188.  The proxy and the
standard-library source are external I/O; their responses are inputs of the
model: `getMod` carries the module path declared by the go.mod file as
extracted by `modfile.ModulePath` (empty string when the file declares none),
`getZip` and `stdZip` carry the archive entries.  The deferred wrap preserves
the error kind, so the final status of a failed fetch is `toStatus` of the
kind, and a successful fetch with a non-200 package state gets the
`HasIncompletePackages` status. -/

/-- Mirrors the fetch-relevant fields of `ModuleInfo` as produced by
`GetModuleInfo`. -/
structure ModuleInfoL where
  modulePath : String
  requestedVersion : String
  resolvedVersion : String
  error : Option (ErrKind × String) := none

/-- Proxy responses consumed by `FetchModule`. -/
structure ProxyModel where
  getModPath : Except (ErrKind × String) String
  getZip : Except (ErrKind × String) (List ZipEntry)

/-- Mirrors `FetchResult` in the fields the claims mention. -/
structure FetchResultL where
  modulePath : String
  requestedVersion : String
  resolvedVersion : String := ""
  goModPath : String := ""
  status : Nat := 0
  error : Option (ErrKind × String) := none
  moduleData : Option ModuleL := none
  pvs : List PackageVersionState := []

/-- Mirrors the deferred function of `FetchModule`: on error the status is
the status of the error kind, and a zero status becomes 200. -/
def finishFetch (fr : FetchResultL) : FetchResultL :=
  match fr.error with
  | some e => { fr with status := toStatus e.1 }
  | none => if fr.status = 0 then { fr with status := 200 } else fr

/-- Mirrors the body of `FetchModule`. -/
def fetchModule (lim : Limits) (mi : ModuleInfoL) (proxy : ProxyModel)
    (stdZip : Except (ErrKind × String) (List ZipEntry)) (det : Detector)
    (oracle : String → GoEnv → EnvOutcome) : FetchResultL :=
  let fr : FetchResultL := { modulePath := mi.modulePath,
                             requestedVersion := mi.requestedVersion }
  match mi.error with
  | some e => finishFetch { fr with error := some e }
  | none =>
    let fr := { fr with resolvedVersion := mi.resolvedVersion }
    let afterZip : FetchResultL ⊕ (FetchResultL × List ZipEntry) :=
      if mi.modulePath = stdlibModulePath then
        match stdZip with
        | .error e => .inl { fr with error := some e }
        | .ok entries => .inr ({ fr with goModPath := stdlibModulePath }, entries)
      else
        match proxy.getModPath with
        | .error e => .inl { fr with error := some e }
        | .ok goModPath =>
          if goModPath = "" then
            .inl { fr with error := some (.badModule, "go.mod has no module path") }
          else
            let fr := { fr with goModPath := goModPath }
            if goModPath ≠ mi.modulePath then
              .inl { fr with error := some (.alternativeModule,
                "module path and go.mod path differ") }
            else
              match proxy.getZip with
              | .error e => .inl { fr with error := some e }
              | .ok entries => .inr (fr, entries)
    match afterZip with
    | .inl fr => finishFetch fr
    | .inr (fr, entries) =>
      match processZipFile lim mi.modulePath fr.resolvedVersion entries det oracle with
      | .error (.readmeError msg) => finishFetch { fr with error := some (.internalError, msg) }
      | .error (.badModule msg) => finishFetch { fr with error := some (.badModule, msg) }
      | .error (.extractOther msg) => finishFetch { fr with error := some (.internalError, msg) }
      | .ok (m, pvs) =>
        let m := if mi.modulePath = stdlibModulePath then { m with hasGoMod := true } else m
        let status := if pvs.any (fun s => s.status ≠ 200) then
          toStatus .hasIncompletePackages else 0
        finishFetch { fr with moduleData := some m, pvs := pvs, status := status }

/-! ### Frontend orchestrator pieces

The frontend `candidateModulePaths` and `fetchAndPoll` live in
`internal/frontend/fetch.go`, which is not part of the source slice; only
their tests (`src/internal/frontend/fetch_test.go`) are.  They are modelled
from the spec (sections 4.7, 4.9 and 7), with the concrete behaviour pinned
by those tests where the tests decide it. -/

/-- Modelled from the spec (section 4.9 step 1): well-known hosting domains
whose repository paths have three-segment roots. -/
def threeSegmentHosts : List String := ["github.com", "gitlab.com", "bitbucket.org"]

/-- De-duplication preserving the first occurrence of each element. -/
def dedupAux (seen : List String) : List String → List String
  | [] => []
  | a :: l => if seen.contains a then dedupAux seen l
              else a :: dedupAux (a :: seen) l

/-- De-duplicates a list of strings while preserving order. -/
def dedupKeepFirst (l : List String) : List String := dedupAux [] l

/-- Slash-separated segments of the full path. -/
def candSegs (fullPath : String) : List String := splitSlash fullPath

/-- Minimal number of segments of a candidate module path: three below a
well-known hosting domain, one otherwise (spec section 4.9 steps 1-2). -/
def candMinSegs (fullPath : String) : Nat :=
  if threeSegmentHosts.contains ((candSegs fullPath).headD "") then 3 else 1

/-- Segment counts of the candidate prefixes, from the full path's count down
to the minimum, i.e. from the longest prefix to the shortest. -/
def candKs (fullPath : String) : List Nat :=
  (List.range' (candMinSegs fullPath)
    ((candSegs fullPath).length + 1 - candMinSegs fullPath)).reverse

/-- Modelled from the spec: the untruncated candidate sequence of section 4.9
steps 1-3 (missing from the source slice).  The prefixes of the full path are
produced from longest to shortest, stopping at three segments for well-known
hosting domains and at one segment otherwise, then de-duplicated preserving
order. -/
def candidateModulePathsAll (fullPath : String) : List String :=
  dedupKeepFirst ((candKs fullPath).map
    (fun k => joinPath ((candSegs fullPath).take k)))

/-- Modelled from the spec: `candidateModulePaths` (frontend fetch.go, not in
the source slice).  Spec section 4.9 step 4 says the truncation to
`maxPathsToFetch` entries keeps the longest prefixes, but
`TestCandidateModulePaths` in src/internal/frontend/fetch_test.go pins the
opposite: for a path with more candidates than the bound the expected output
is the shortest prefixes, i.e. the truncation keeps the last
`maxPathsToFetch` entries of the longest-to-shortest sequence.  The model
follows the test. -/
def candidateModulePaths (maxPathsToFetch : Nat) (fullPath : String) : List String :=
  let all := candidateModulePathsAll fullPath
  if all.length > maxPathsToFetch then all.drop (all.length - maxPathsToFetch) else all

/-- Modelled from the spec (section 4.7 steps 1 and the section 7 user-visible
mapping): the collapse of a persisted terminal status to the HTTP code that
`fetchAndPoll` returns — OK stays 200 and NotFound, AlternativeModule and
BadModule all surface as 404. -/
def collapseStatus (s : Nat) : Nat :=
  if s = 200 then 200
  else if s = toStatus .notFound || s = toStatus .alternativeModule
      || s = toStatus .badModule then 404
  else s

/-- Modelled from the spec (section 4.7 step 1): the version-map lookup that
short-circuits `fetchAndPoll` (frontend fetch.go, not in the source slice).
Given the version-map rows, a recorded terminal status for the requested
`(modulePath, version)` is returned collapsed, and no new fetch is started;
`none` means the orchestrator proceeds to candidate fetches. -/
def fetchAndPollCached (versionMap : List ((String × String) × Nat))
    (modulePath version : String) : Option Nat :=
  (versionMap.lookup (modulePath, version)).map collapseStatus

/-! ### Helper lemmas -/

/-- Running phase 1 over a concatenation runs it over the parts in
sequence. -/
theorem phase1_append (lim : Limits) (mp rv : String) (l1 l2 : List ZipEntry)
    (st : Phase1State) :
    phase1 lim mp rv (l1 ++ l2) st =
      match phase1 lim mp rv l1 st with
      | .error e => .error e
      | .ok st2 => phase1 lim mp rv l2 st2 := by
  induction l1 generalizing st with
  | nil => simp [phase1]
  | cons f rest ih =>
    simp only [List.cons_append, phase1]
    cases phase1Step lim mp rv st f with
    | error e => rfl
    | ok st2 => exact ih st2

/-- A directory entry leaves the phase-1 state unchanged. -/
theorem phase1Step_dir (lim : Limits) (mp rv : String) (st : Phase1State)
    (f : ZipEntry) (h : f.isDir = true) :
    phase1Step lim mp rv st f = .ok st := by
  simp [phase1Step, h]

/-- A non-directory entry whose name lacks the module version dir path start
fails phase 1 with the malformed-zip sentinel error. -/
theorem phase1Step_malformed (lim : Limits) (mp rv : String) (st : Phase1State)
    (f : ZipEntry) (hd : f.isDir = false)
    (hp : startsWithStr f.name (moduleVersionDir mp rv ++ "/") = false) :
    phase1Step lim mp rv st f =
      .error (.malformedZip
        ("expected file to have module version dir as path start; got " ++ f.name)) := by
  simp [phase1Step, hd, hp]

/-! ### Claim C7 -/

/-- Claim C7: during phase 1, every non-directory archive entry whose name
does not begin with the `modulePath@resolvedVersion/` module prefix causes
the module to fail with a `BadModule` error, while directory entries are
silently ignored regardless of their names.  Stated as: (1) a directory
entry leaves the phase-1 state unchanged; (2) a non-directory entry without
the module prefix makes `phase1Step` return the malformed-zip sentinel;
(3) if phase 1 of the entries preceding such an entry succeeds, the whole
`extractPackagesFromZip` reports the malformed-zip error; (4) `processZipFile`
turns a malformed-zip extraction error into a `BadModule` error (provided the
readme pass got as far as the package pass). -/
theorem claim_C7_prefix_validation :
    (∀ (lim : Limits) (mp rv : String) (st : Phase1State) (f : ZipEntry),
      f.isDir = true → phase1Step lim mp rv st f = .ok st) ∧
    (∀ (lim : Limits) (mp rv : String) (st : Phase1State) (f : ZipEntry),
      f.isDir = false → startsWithStr f.name (moduleVersionDir mp rv ++ "/") = false →
      phase1Step lim mp rv st f =
        .error (.malformedZip
          ("expected file to have module version dir as path start; got " ++ f.name))) ∧
    (∀ (lim : Limits) (mp rv : String) (pre post : List ZipEntry) (f : ZipEntry)
      (det : Option Detector) (oracle : String → GoEnv → EnvOutcome) (st : Phase1State),
      phase1 lim mp rv pre {} = .ok st →
      f.isDir = false → startsWithStr f.name (moduleVersionDir mp rv ++ "/") = false →
      (extractPackagesFromZip lim mp rv (pre ++ f :: post) det oracle).err =
        some (.malformedZip
          ("expected file to have module version dir as path start; got " ++ f.name))) ∧
    (∀ (lim : Limits) (mp rv : String) (entries : List ZipEntry) (det : Detector)
      (oracle : String → GoEnv → EnvOutcome) (rms : List Readme) (msg : String),
      extractReadmesFromZip lim mp rv entries = .ok rms →
      (extractPackagesFromZip lim mp rv entries (some det) oracle).err =
        some (.malformedZip msg) →
      processZipFile lim mp rv entries det oracle = .error (.badModule msg)) := by
  refine ⟨phase1Step_dir, phase1Step_malformed, ?_, ?_⟩
  · intro lim mp rv pre post f det oracle st hpre hd hp
    have hstep := phase1Step_malformed lim mp rv st f hd hp
    have : phase1 lim mp rv (pre ++ f :: post) {} =
        .error (.malformedZip
          ("expected file to have module version dir as path start; got " ++ f.name)) := by
      rw [phase1_append, hpre]
      simp [phase1, hstep]
    simp [extractPackagesFromZip, this]
  · intro lim mp rv entries det oracle rms msg hrm hext
    unfold processZipFile
    rw [hrm]
    revert hext
    cases hx : (extractPackagesFromZip lim mp rv entries (some det) oracle).err with
    | none => intro h; cases h
    | some e =>
      intro h
      cases e <;> simp_all [processZipFile]

/-! ### Claim C8 -/

/-- Claim C8: in phase 1, a `.go` file whose uncompressed size is exactly
`MaxFileSize` is accepted into its directory's file list, while the same file
one byte larger marks the directory incomplete and emits a
`PackageVersionState` with status `PackageMaxFileSizeLimitExceeded` — the
strict comparison `uncompressedSize > MaxFileSize` decides. -/
theorem claim_C8_max_file_size_boundary (lim : Limits) (mp rv : String)
    (st : Phase1State) (f : ZipEntry)
    (hd : f.isDir = false)
    (hp : startsWithStr f.name (moduleVersionDir mp rv ++ "/") = true)
    (hinc : st.incompleteDirs.contains
      (pathDir (trimPre f.name (moduleVersionDir mp rv ++ "/"))) = false)
    (hig : ignoredByGoTool
      (pathJoin mp (pathDir (trimPre f.name (moduleVersionDir mp rv ++ "/")))) = false)
    (hv : isVendored
      (pathJoin mp (pathDir (trimPre f.name (moduleVersionDir mp rv ++ "/")))) = false)
    (hgo : endsWithStr f.name ".go" = true)
    (hok : checkImportPath
      (pathJoin mp (pathDir (trimPre f.name (moduleVersionDir mp rv ++ "/")))) = none)
    (hcap : (dirsAppend st.dirs
      (pathDir (trimPre f.name (moduleVersionDir mp rv ++ "/"))) f).length ≤
        lim.maxPackagesPerModule) :
    (f.uncompressedSize = lim.maxFileSize →
      phase1Step lim mp rv st f = .ok { st with
        dirs := dirsAppend st.dirs
          (pathDir (trimPre f.name (moduleVersionDir mp rv ++ "/"))) f }) ∧
    (f.uncompressedSize = lim.maxFileSize + 1 →
      phase1Step lim mp rv st f = .ok { st with
        incompleteDirs := st.incompleteDirs ++
          [pathDir (trimPre f.name (moduleVersionDir mp rv ++ "/"))],
        pvs := st.pvs ++ [⟨mp,
          pathJoin mp (pathDir (trimPre f.name (moduleVersionDir mp rv ++ "/"))), rv,
          toStatus .packageMaxFileSizeLimitExceeded,
          "Unable to process " ++ f.name ++ ": file size exceeds max limit"⟩] }) := by
  have hinc2 : pathDir (trimPre f.name (moduleVersionDir mp rv ++ "/")) ∉
      st.incompleteDirs := by simpa using hinc
  constructor
  · intro hsz
    have hle : ¬ f.uncompressedSize > lim.maxFileSize := by omega
    have hlen : ¬ (dirsAppend st.dirs
        (pathDir (trimPre f.name (moduleVersionDir mp rv ++ "/"))) f).length >
        lim.maxPackagesPerModule := by omega
    simp [phase1Step, hd, hp, hinc2, hig, hv, hgo, hok, hle, hlen]
  · intro hsz
    have hgt : f.uncompressedSize > lim.maxFileSize := by omega
    simp [phase1Step, hd, hp, hinc2, hig, hv, hgo, hok, hgt]

/-- Witness for claim C8: the boundary at a concrete file of size 100. -/
theorem claim_C8_max_file_size_boundary_witness :
    phase1Step ⟨100, 10, 10, 10⟩ "github.com/m" "v1.0.0" {}
        ⟨"github.com/m@v1.0.0/bar/a.go", false, 100, ""⟩ =
      .ok { dirs := [("bar", [⟨"github.com/m@v1.0.0/bar/a.go", false, 100, ""⟩])] } ∧
    phase1Step ⟨100, 10, 10, 10⟩ "github.com/m" "v1.0.0" {}
        ⟨"github.com/m@v1.0.0/bar/a.go", false, 101, ""⟩ =
      .ok { incompleteDirs := ["bar"],
            pvs := [⟨"github.com/m", "github.com/m/bar", "v1.0.0",
              toStatus .packageMaxFileSizeLimitExceeded,
              "Unable to process github.com/m@v1.0.0/bar/a.go: file size exceeds max limit"⟩] } := by
  constructor
  · exact ((claim_C8_max_file_size_boundary ⟨100, 10, 10, 10⟩ "github.com/m" "v1.0.0" {}
      ⟨"github.com/m@v1.0.0/bar/a.go", false, 100, ""⟩ (by decide) (by decide) (by decide)
      (by decide) (by decide) (by decide) (by decide) (by decide)).1 (by decide))
  · exact ((claim_C8_max_file_size_boundary ⟨100, 10, 10, 10⟩ "github.com/m" "v1.0.0" {}
      ⟨"github.com/m@v1.0.0/bar/a.go", false, 101, ""⟩ (by decide) (by decide) (by decide)
      (by decide) (by decide) (by decide) (by decide) (by decide)).2 (by decide))

/-- Witness for claim C7: a directory entry with an arbitrary name is skipped,
while a file named `evil.go` outside the module prefix fails extraction with
the malformed-zip sentinel, which `processZipFile` reports as `BadModule`. -/
theorem claim_C7_prefix_validation_witness :
    phase1Step ⟨100, 10, 10, 10⟩ "github.com/m" "v1.0.0" {} ⟨"random/", true, 0, ""⟩ =
      .ok {} ∧
    (extractPackagesFromZip ⟨100, 10, 10, 10⟩ "github.com/m" "v1.0.0"
      [⟨"evil.go", false, 1, ""⟩] (some ⟨[], true, fun _ => (true, [])⟩)
      (fun _ _ => .empty)).err =
        some (.malformedZip
          "expected file to have module version dir as path start; got evil.go") ∧
    processZipFile ⟨100, 10, 10, 10⟩ "github.com/m" "v1.0.0" [⟨"evil.go", false, 1, ""⟩]
        ⟨[], true, fun _ => (true, [])⟩ (fun _ _ => .empty) =
      .error (.badModule
        "expected file to have module version dir as path start; got evil.go") := by
  refine ⟨claim_C7_prefix_validation.1 ⟨100, 10, 10, 10⟩ "github.com/m" "v1.0.0" {}
    ⟨"random/", true, 0, ""⟩ rfl, ?_, ?_⟩
  · exact claim_C7_prefix_validation.2.2.1 ⟨100, 10, 10, 10⟩ "github.com/m" "v1.0.0"
      [] [] ⟨"evil.go", false, 1, ""⟩ (some ⟨[], true, fun _ => (true, [])⟩)
      (fun _ _ => .empty) {} rfl rfl (by decide)
  · exact claim_C7_prefix_validation.2.2.2 ⟨100, 10, 10, 10⟩ "github.com/m" "v1.0.0"
      [⟨"evil.go", false, 1, ""⟩] ⟨[], true, fun _ => (true, [])⟩ (fun _ _ => .empty)
      [] _ rfl
      (claim_C7_prefix_validation.2.2.1 ⟨100, 10, 10, 10⟩ "github.com/m" "v1.0.0"
        [] [] ⟨"evil.go", false, 1, ""⟩ (some ⟨[], true, fun _ => (true, [])⟩)
        (fun _ _ => .empty) {} rfl rfl (by decide))

/-! ### Claim C5 -/

/-- License attachment does not change the rendered documentation HTML of a
package. -/
theorem applyDetector_docHTML (det : Option Detector) (ip : String) (p : LegacyPackage) :
    (applyDetector det ip p).documentationHTML = p.documentationHTML := by
  cases det <;> rfl

/-- Claim C5: when rendering a package's documentation exceeds
`MaxDocumentationHTML`, the package is still produced, with its
documentation HTML replaced by the short sentinel, and the directory's
`PackageVersionState` gets status `PackageDocumentationHTMLTooLarge` while
the package is still appended to the module's package list and the directory
is not marked incomplete.  The first build environment is taken to be the one
that loads the package; the too-large comparison is the `dochtml.Render`
limit check modelled in `loadPackageWithBuildContext`. -/
theorem claim_C5_doc_too_large (lim : Limits) (mp rv ip : String) (det : Option Detector)
    (oracle : String → GoEnv → EnvOutcome) (files : List ZipEntry) (doc : LoadedDoc)
    (horacle : oracle ip ("linux", "amd64") = .loaded doc)
    (himp : doc.imports.length ≤ lim.maxImportsPerPackage)
    (hdoc : doc.docHTML.length > lim.maxDocumentationHTML) :
    ∃ pkg : LegacyPackage,
      pkg.documentationHTML = docTooLargeReplacement ∧
      processDir lim mp rv det oracle ip files =
        .emit (some pkg)
          ⟨mp, pkg.path, rv, toStatus .packageDocumentationHTMLTooLarge, docTooLargeErrMsg⟩
          false ∧
      (∀ (rest : List (String × List ZipEntry)) (inc : List String)
        (pkgs : List LegacyPackage) (pvs : List PackageVersionState),
        inc.contains ip = false →
        phase2 lim mp rv det oracle ((ip, files) :: rest) inc pkgs pvs =
          phase2 lim mp rv det oracle rest inc (pkgs ++ [pkg])
            (pvs ++ [⟨mp, pkg.path, rv,
              toStatus .packageDocumentationHTMLTooLarge, docTooLargeErrMsg⟩])) := by
  have himp2 : ¬ doc.imports.length > lim.maxImportsPerPackage := by omega
  have hload : loadPackage lim mp ip (oracle ip) =
      .found (applyDetector none ip
        ⟨(if mp = stdlibModulePath then ip else pathJoin mp ip), doc.packageName,
          doc.synopsis, doc.imports, docTooLargeReplacement, "linux", "amd64",
          false, []⟩) true := by
    simp [loadPackage, goEnvs, loadPackageEnvs, loadPackageWithBuildContext, horacle,
      himp2, hdoc, applyDetector]
  refine ⟨applyDetector det ip
    ⟨(if mp = stdlibModulePath then ip else pathJoin mp ip), doc.packageName,
      doc.synopsis, doc.imports, docTooLargeReplacement, "linux", "amd64", false, []⟩,
    applyDetector_docHTML det ip _, ?_, ?_⟩
  · simp [processDir, hload, applyDetector]
  · intro rest inc pkgs pvs hinc
    simp only [phase2, hinc, Bool.false_eq_true, if_false]
    simp [processDir, hload, applyDetector, Option.toList]

/-- Witness for claim C5: a concrete package whose documentation HTML has
length 6 against a limit of 5. -/
theorem claim_C5_doc_too_large_witness :
    ∃ pkg : LegacyPackage,
      pkg.documentationHTML = docTooLargeReplacement ∧
      processDir ⟨100, 10, 10, 5⟩ "github.com/m" "v1.0.0" none
          (fun _ _ => .loaded ⟨"foo", "syn", [], "123456"⟩) "foo"
          [⟨"github.com/m@v1.0.0/foo/a.go", false, 5, ""⟩] =
        .emit (some pkg)
          ⟨"github.com/m", pkg.path, "v1.0.0",
            toStatus .packageDocumentationHTMLTooLarge, docTooLargeErrMsg⟩ false ∧
      (∀ (rest : List (String × List ZipEntry)) (inc : List String)
        (pkgs : List LegacyPackage) (pvs : List PackageVersionState),
        inc.contains "foo" = false →
        phase2 ⟨100, 10, 10, 5⟩ "github.com/m" "v1.0.0" none
            (fun _ _ => .loaded ⟨"foo", "syn", [], "123456"⟩) (("foo",
              [⟨"github.com/m@v1.0.0/foo/a.go", false, 5, ""⟩]) :: rest) inc pkgs pvs =
          phase2 ⟨100, 10, 10, 5⟩ "github.com/m" "v1.0.0" none
            (fun _ _ => .loaded ⟨"foo", "syn", [], "123456"⟩) rest inc (pkgs ++ [pkg])
            (pvs ++ [⟨"github.com/m", pkg.path, "v1.0.0",
              toStatus .packageDocumentationHTMLTooLarge, docTooLargeErrMsg⟩])) :=
  claim_C5_doc_too_large ⟨100, 10, 10, 5⟩ "github.com/m" "v1.0.0" "foo" none
    (fun _ _ => .loaded ⟨"foo", "syn", [], "123456"⟩)
    [⟨"github.com/m@v1.0.0/foo/a.go", false, 5, ""⟩] ⟨"foo", "syn", [], "123456"⟩
    rfl (by decide) (by decide)

/-! ### Claim C6 -/

/-- When every environment of the list analyses to no matching files,
`loadPackageEnvs` returns the nil-nil outcome. -/
theorem loadPackageEnvs_all_empty (lim : Limits) (mp ip : String)
    (oracle : GoEnv → EnvOutcome) (envs : List GoEnv)
    (h : ∀ e ∈ envs, oracle e = .empty) :
    loadPackageEnvs lim mp ip oracle envs = .nothing := by
  induction envs with
  | nil => rfl
  | cons e rest ih =>
    have he : oracle e = .empty := h e (List.mem_cons_self e rest)
    simp [loadPackageEnvs, he, loadPackageWithBuildContext]
    exact ih fun x hx => h x (List.mem_cons_of_mem e hx)

/-- Claim C6: `loadPackage` tries the build environments in the fixed order
`[(linux,amd64), (windows,amd64), (darwin,amd64), (js,wasm), (linux,js)]` and
returns the package from the first environment yielding a non-nil package;
if every environment returns a nil package with nil error and the directory
had `.go` files, the directory's state gets status
`PackageBuildContextNotSupported`.  Stated as: (1) `goEnvs` is exactly that
list and `loadPackage` runs `loadPackageEnvs` over it; (2) when the
environments before `env` all yield nil-nil and `env` yields a package (with
or without the too-large error), that package is returned; (3) when every
environment yields nil-nil and the directory has files, the emitted state has
status `PackageBuildContextNotSupported`. -/
theorem claim_C6_build_context_order :
    (goEnvs = [("linux", "amd64"), ("windows", "amd64"), ("darwin", "amd64"),
      ("js", "wasm"), ("linux", "js")] ∧
      ∀ (lim : Limits) (mp ip : String) (oracle : GoEnv → EnvOutcome),
        loadPackage lim mp ip oracle = loadPackageEnvs lim mp ip oracle goEnvs) ∧
    (∀ (lim : Limits) (mp ip : String) (oracle : GoEnv → EnvOutcome)
      (pre rest : List GoEnv) (env : GoEnv) (p : LegacyPackage),
      (∀ e ∈ pre, oracle e = .empty) →
      (loadPackageWithBuildContext lim mp ip env.1 env.2 (oracle env) = .pkgOk p ∨
        loadPackageWithBuildContext lim mp ip env.1 env.2 (oracle env) = .pkgTooLarge p) →
      ∃ tooLarge : Bool,
        loadPackageEnvs lim mp ip oracle (pre ++ env :: rest) = .found p tooLarge) ∧
    (∀ (lim : Limits) (mp rv ip : String) (det : Option Detector)
      (oracle : String → GoEnv → EnvOutcome) (files : List ZipEntry),
      (∀ e ∈ goEnvs, oracle ip e = .empty) → files ≠ [] →
      processDir lim mp rv det oracle ip files =
        .emit none ⟨mp, pathJoin mp ip, rv,
          toStatus .packageBuildContextNotSupported, ""⟩ true) := by
  refine ⟨⟨rfl, fun _ _ _ _ => rfl⟩, ?_, ?_⟩
  · intro lim mp ip oracle pre rest env p hpre henv
    induction pre with
    | nil =>
      cases henv with
      | inl h => exact ⟨false, by simp [loadPackageEnvs, h]⟩
      | inr h => exact ⟨true, by simp [loadPackageEnvs, h]⟩
    | cons e pre2 ih =>
      have he : oracle e = .empty := hpre e (List.mem_cons_self e pre2)
      have ⟨tl, htl⟩ := ih fun x hx => hpre x (List.mem_cons_of_mem e hx)
      exact ⟨tl, by simp [loadPackageEnvs, he, loadPackageWithBuildContext]; exact htl⟩
  · intro lim mp rv ip det oracle files hempty hfiles
    have hload : loadPackage lim mp ip (oracle ip) = .nothing :=
      loadPackageEnvs_all_empty lim mp ip (oracle ip) goEnvs hempty
    have hlen : files.length > 0 := List.length_pos.mpr hfiles
    simp [processDir, hload, hlen]

/-- Witness for claim C6: the first two environments yield no files, the
third yields a package, which is returned; and a directory whose files match
no environment is reported as build-context-not-supported. -/
theorem claim_C6_build_context_order_witness :
    (∃ tooLarge : Bool,
      loadPackageEnvs ⟨100, 10, 10, 100⟩ "github.com/m" "foo"
        (fun e => if e = ("darwin", "amd64") then .loaded ⟨"foo", "s", [], "h"⟩ else .empty)
        ([("linux", "amd64"), ("windows", "amd64")] ++ ("darwin", "amd64") ::
          [("js", "wasm"), ("linux", "js")]) =
        .found ⟨"github.com/m/foo", "foo", "s", [], "h", "darwin", "amd64", false, []⟩
          tooLarge) ∧
    processDir ⟨100, 10, 10, 100⟩ "github.com/m" "v1.0.0" none (fun _ _ => .empty) "foo"
        [⟨"github.com/m@v1.0.0/foo/a.go", false, 5, ""⟩] =
      .emit none ⟨"github.com/m", "github.com/m/foo", "v1.0.0",
        toStatus .packageBuildContextNotSupported, ""⟩ true := by
  constructor
  · exact claim_C6_build_context_order.2.1 ⟨100, 10, 10, 100⟩ "github.com/m" "foo"
      (fun e => if e = ("darwin", "amd64") then .loaded ⟨"foo", "s", [], "h"⟩ else .empty)
      [("linux", "amd64"), ("windows", "amd64")] [("js", "wasm"), ("linux", "js")]
      ("darwin", "amd64") ⟨"github.com/m/foo", "foo", "s", [], "h", "darwin", "amd64",
        false, []⟩ (by decide) (Or.inl (by decide))
  · exact claim_C6_build_context_order.2.2 ⟨100, 10, 10, 100⟩ "github.com/m" "v1.0.0"
      "foo" none (fun _ _ => .empty) [⟨"github.com/m@v1.0.0/foo/a.go", false, 5, ""⟩]
      (by decide) (by decide)

/-! ### Claim C4 -/

/-- Claim C4: when `FetchModule` finds that the module path declared by the
go.mod file of the zip differs from the requested module path, it returns an
`AlternativeModule` error without producing a module, with the corresponding
status; and once that status is recorded in the version map, a subsequent
`fetchAndPoll` for the same `(modulePath, version)` key returns 404 from the
cached row alone, without starting a new fetch (the short-circuit of the
modelled step 1 of the orchestrator). -/
theorem claim_C4_alternative_module (lim : Limits) (mi : ModuleInfoL)
    (goModPath : String) (zipRes stdZip : Except (ErrKind × String) (List ZipEntry))
    (det : Detector) (oracle : String → GoEnv → EnvOutcome)
    (hmi : mi.error = none) (hstd : mi.modulePath ≠ stdlibModulePath)
    (hne : goModPath ≠ "") (hdiff : goModPath ≠ mi.modulePath) :
    (fetchModule lim mi ⟨.ok goModPath, zipRes⟩ stdZip det oracle).error =
      some (.alternativeModule, "module path and go.mod path differ") ∧
    (fetchModule lim mi ⟨.ok goModPath, zipRes⟩ stdZip det oracle).moduleData = none ∧
    (fetchModule lim mi ⟨.ok goModPath, zipRes⟩ stdZip det oracle).status =
      toStatus .alternativeModule ∧
    (∀ (vmRest : List ((String × String) × Nat)) (v : String),
      fetchAndPollCached
        (((mi.modulePath, v),
          (fetchModule lim mi ⟨.ok goModPath, zipRes⟩ stdZip det oracle).status) :: vmRest)
        mi.modulePath v = some 404) := by
  have hfr : fetchModule lim mi ⟨.ok goModPath, zipRes⟩ stdZip det oracle =
      finishFetch
        { modulePath := mi.modulePath, requestedVersion := mi.requestedVersion,
          resolvedVersion := mi.resolvedVersion, goModPath := goModPath,
          error := some (.alternativeModule, "module path and go.mod path differ") } := by
    simp [fetchModule, hmi, hstd, hne, hdiff]
  refine ⟨by simp [hfr, finishFetch], by simp [hfr, finishFetch], by simp [hfr, finishFetch], ?_⟩
  intro vmRest v
  have hst : (fetchModule lim mi ⟨.ok goModPath, zipRes⟩ stdZip det oracle).status =
      toStatus .alternativeModule := by simp [hfr, finishFetch]
  rw [hst]
  simp [fetchAndPollCached, List.lookup, collapseStatus, toStatus]

/-- Witness for claim C4: a concrete fetch of `github.com/m` whose go.mod
declares `github.com/other`. -/
theorem claim_C4_alternative_module_witness :
    (fetchModule ⟨100, 10, 10, 100⟩ ⟨"github.com/m", "v1.0.0", "v1.0.0", none⟩
        ⟨.ok "github.com/other", .ok []⟩ (.error (.internalError, ""))
        ⟨[], true, fun _ => (true, [])⟩ (fun _ _ => .empty)).error =
      some (.alternativeModule, "module path and go.mod path differ") ∧
    (fetchModule ⟨100, 10, 10, 100⟩ ⟨"github.com/m", "v1.0.0", "v1.0.0", none⟩
        ⟨.ok "github.com/other", .ok []⟩ (.error (.internalError, ""))
        ⟨[], true, fun _ => (true, [])⟩ (fun _ _ => .empty)).moduleData = none ∧
    (fetchModule ⟨100, 10, 10, 100⟩ ⟨"github.com/m", "v1.0.0", "v1.0.0", none⟩
        ⟨.ok "github.com/other", .ok []⟩ (.error (.internalError, ""))
        ⟨[], true, fun _ => (true, [])⟩ (fun _ _ => .empty)).status =
      toStatus .alternativeModule ∧
    (∀ (vmRest : List ((String × String) × Nat)) (v : String),
      fetchAndPollCached
        ((("github.com/m", v),
          (fetchModule ⟨100, 10, 10, 100⟩ ⟨"github.com/m", "v1.0.0", "v1.0.0", none⟩
            ⟨.ok "github.com/other", .ok []⟩ (.error (.internalError, ""))
            ⟨[], true, fun _ => (true, [])⟩ (fun _ _ => .empty)).status) :: vmRest)
        "github.com/m" v = some 404) :=
  claim_C4_alternative_module ⟨100, 10, 10, 100⟩
    ⟨"github.com/m", "v1.0.0", "v1.0.0", none⟩ "github.com/other" (.ok [])
    (.error (.internalError, "")) ⟨[], true, fun _ => (true, [])⟩ (fun _ _ => .empty)
    rfl (by decide) (by decide) (by decide)

/-! ### Claim C10 -/

/-- An oversized README anywhere in the archive fails the whole readme
extraction. -/
theorem extractReadmes_oversized (lim : Limits) (mp rv : String)
    (entries : List ZipEntry) (f : ZipEntry) (hf : f ∈ entries)
    (hr : isReadme f.name = true) (hsz : f.uncompressedSize > lim.maxFileSize) :
    ∀ acc, extractReadmes lim mp rv entries acc = .error "file size exceeds max limit" := by
  induction entries with
  | nil => cases hf
  | cons g rest ih =>
    intro acc
    rcases List.mem_cons.mp hf with hfg | hfr
    · subst hfg
      simp [extractReadmes, hr, hsz]
    · by_cases hg : isReadme g.name = true
      · by_cases hgsz : g.uncompressedSize > lim.maxFileSize
        · simp [extractReadmes, hg, hgsz]
        · simp [extractReadmes, hg, hgsz]
          exact ih hfr _
      · simp only [Bool.not_eq_true] at hg
        simp [extractReadmes, hg]
        exact ih hfr _

/-- Claim C10: an archive entry qualifying as a README whose uncompressed
size exceeds `MaxFileSize` makes `extractReadmesFromZip` return an error and
`processZipFile` fail the entire module fetch — unlike an oversized `.go`
file, which only marks its own directory incomplete while the rest of the
module proceeds (third conjunct: a concrete module with an oversized `.go`
file still extracts with no module-level error, the oversized directory
reported in its own state). -/
theorem claim_C10_oversized_readme_fails_module :
    (∀ (lim : Limits) (mp rv : String) (entries : List ZipEntry) (f : ZipEntry),
      f ∈ entries → isReadme f.name = true → f.uncompressedSize > lim.maxFileSize →
      extractReadmesFromZip lim mp rv entries = .error "file size exceeds max limit") ∧
    (∀ (lim : Limits) (mp rv : String) (entries : List ZipEntry) (det : Detector)
      (oracle : String → GoEnv → EnvOutcome) (f : ZipEntry),
      f ∈ entries → isReadme f.name = true → f.uncompressedSize > lim.maxFileSize →
      processZipFile lim mp rv entries det oracle =
        .error (.readmeError "extractReadmesFromZip: file size exceeds max limit")) ∧
    ((extractPackagesFromZip ⟨100, 10, 10, 100⟩ "github.com/m" "v1.0.0"
        [⟨"github.com/m@v1.0.0/big/a.go", false, 101, ""⟩,
          ⟨"github.com/m@v1.0.0/bar/b.go", false, 5, ""⟩]
        (some ⟨[], true, fun _ => (true, [])⟩)
        (fun _ env => if env = ("linux", "amd64") then
          .loaded ⟨"bar", "s", [], "h"⟩ else .empty)).err = none ∧
      (extractPackagesFromZip ⟨100, 10, 10, 100⟩ "github.com/m" "v1.0.0"
        [⟨"github.com/m@v1.0.0/big/a.go", false, 101, ""⟩,
          ⟨"github.com/m@v1.0.0/bar/b.go", false, 5, ""⟩]
        (some ⟨[], true, fun _ => (true, [])⟩)
        (fun _ env => if env = ("linux", "amd64") then
          .loaded ⟨"bar", "s", [], "h"⟩ else .empty)).pvs =
        [⟨"github.com/m", "github.com/m/big", "v1.0.0",
            toStatus .packageMaxFileSizeLimitExceeded,
            "Unable to process github.com/m@v1.0.0/big/a.go: file size exceeds max limit"⟩,
          ⟨"github.com/m", "github.com/m/bar", "v1.0.0", 200, ""⟩]) := by
  refine ⟨?_, ?_, by decide, by decide⟩
  · intro lim mp rv entries f hf hr hsz
    exact extractReadmes_oversized lim mp rv entries f hf hr hsz []
  · intro lim mp rv entries det oracle f hf hr hsz
    have h := extractReadmes_oversized lim mp rv entries f hf hr hsz []
    simp [processZipFile, extractReadmesFromZip, h]

/-- Witness for claim C10: a concrete archive whose only entry is an
oversized README. -/
theorem claim_C10_oversized_readme_fails_module_witness :
    extractReadmesFromZip ⟨100, 10, 10, 100⟩ "github.com/m" "v1.0.0"
        [⟨"github.com/m@v1.0.0/README.md", false, 101, "x"⟩] =
      .error "file size exceeds max limit" ∧
    processZipFile ⟨100, 10, 10, 100⟩ "github.com/m" "v1.0.0"
        [⟨"github.com/m@v1.0.0/README.md", false, 101, "x"⟩]
        ⟨[], true, fun _ => (true, [])⟩ (fun _ _ => .empty) =
      .error (.readmeError "extractReadmesFromZip: file size exceeds max limit") := by
  constructor
  · exact claim_C10_oversized_readme_fails_module.1 ⟨100, 10, 10, 100⟩
      "github.com/m" "v1.0.0" [⟨"github.com/m@v1.0.0/README.md", false, 101, "x"⟩]
      ⟨"github.com/m@v1.0.0/README.md", false, 101, "x"⟩ (by decide) (by decide) (by decide)
  · exact claim_C10_oversized_readme_fails_module.2.1 ⟨100, 10, 10, 100⟩
      "github.com/m" "v1.0.0" [⟨"github.com/m@v1.0.0/README.md", false, 101, "x"⟩]
      ⟨[], true, fun _ => (true, [])⟩ (fun _ _ => .empty)
      ⟨"github.com/m@v1.0.0/README.md", false, 101, "x"⟩ (by decide) (by decide) (by decide)

/-! ### Claim C2 -/

/-- A successful phase-1 step keeps the number of package directories within
the bound, since the step errors out as soon as an insertion exceeds it. -/
theorem phase1Step_dirs_le (lim : Limits) (mp rv : String) (st st2 : Phase1State)
    (f : ZipEntry) (h : phase1Step lim mp rv st f = .ok st2)
    (hle : st.dirs.length ≤ lim.maxPackagesPerModule) :
    st2.dirs.length ≤ lim.maxPackagesPerModule := by
  unfold phase1Step at h
  dsimp only at h
  repeat' split at h
  all_goals try (injection h with h2; subst h2)
  all_goals try cases h
  all_goals try dsimp only
  all_goals first | exact hle | omega

/-- A successful phase 1 keeps the number of package directories within the
bound. -/
theorem phase1_dirs_le (lim : Limits) (mp rv : String) (entries : List ZipEntry)
    (st st2 : Phase1State) (hle : st.dirs.length ≤ lim.maxPackagesPerModule)
    (h : phase1 lim mp rv entries st = .ok st2) :
    st2.dirs.length ≤ lim.maxPackagesPerModule := by
  induction entries generalizing st with
  | nil =>
    simp only [phase1] at h
    injection h with h2
    subst h2
    exact hle
  | cons f rest ih =>
    simp only [phase1] at h
    revert h
    cases hstep : phase1Step lim mp rv st f with
    | error e => intro h; cases h
    | ok stm =>
      intro h
      exact ih stm (phase1Step_dirs_le lim mp rv st stm f hstep hle) h

/-- Counterexample to claim C2: with `MaxPackagesPerModule = 2`, a module
holding three package directories fails, but with a plain error mapped to a
generic status, not with a `BadModule` error: the too-many-packages failure
is a `fmt.Errorf` error that the `errors.Is` tests of `processZipFile` do not
recognise as one of the sentinel errors it converts to `derrors.BadModule`. -/
theorem claim_C2_counterexample :
    processZipFile ⟨100, 2, 10, 100⟩ "github.com/m" "v1.0.0"
        [⟨"github.com/m@v1.0.0/d1/a.go", false, 5, ""⟩,
          ⟨"github.com/m@v1.0.0/d2/a.go", false, 5, ""⟩,
          ⟨"github.com/m@v1.0.0/d3/a.go", false, 5, ""⟩]
        ⟨[], true, fun _ => (true, [])⟩
        (fun _ env => if env = ("linux", "amd64") then
          .loaded ⟨"p", "s", [], "h"⟩ else .empty) =
      .error (.extractOther
        "extractPackagesFromZip: packages found in github.com/m exceed limit for maxPackagePerModule") ∧
    isErrorResult (processZipFile ⟨100, 2, 10, 100⟩ "github.com/m" "v1.0.0"
        [⟨"github.com/m@v1.0.0/d1/a.go", false, 5, ""⟩,
          ⟨"github.com/m@v1.0.0/d2/a.go", false, 5, ""⟩,
          ⟨"github.com/m@v1.0.0/d3/a.go", false, 5, ""⟩]
        ⟨[], true, fun _ => (true, [])⟩
        (fun _ env => if env = ("linux", "amd64") then
          .loaded ⟨"p", "s", [], "h"⟩ else .empty)) = true ∧
    isBadModuleResult (processZipFile ⟨100, 2, 10, 100⟩ "github.com/m" "v1.0.0"
        [⟨"github.com/m@v1.0.0/d1/a.go", false, 5, ""⟩,
          ⟨"github.com/m@v1.0.0/d2/a.go", false, 5, ""⟩,
          ⟨"github.com/m@v1.0.0/d3/a.go", false, 5, ""⟩]
        ⟨[], true, fun _ => (true, [])⟩
        (fun _ env => if env = ("linux", "amd64") then
          .loaded ⟨"p", "s", [], "h"⟩ else .empty)) = false := by
  refine ⟨by decide, by decide, by decide⟩

/-- Claim C2 as amended: if during phase 1 the number of distinct directories
with at least one accepted `.go` file ever exceeds `MaxPackagesPerModule`,
the whole module fetch fails — but with a plain (generic, 500-class) error,
not a `BadModule` error; a module with exactly `MaxPackagesPerModule`
package directories succeeds while one more fails.  Stated as: (1) a phase 1
that completes never holds more than the bound in package directories (so
exceeding the bound at any point is fatal); (2) a phase-1 error is the error
of the whole extraction; (3) a concrete module with exactly the bound
succeeds; (4) one directory more fails with the generic error. -/
theorem claim_C2_amended_max_packages :
    (∀ (lim : Limits) (mp rv : String) (entries : List ZipEntry) (st st2 : Phase1State),
      st.dirs.length ≤ lim.maxPackagesPerModule →
      phase1 lim mp rv entries st = .ok st2 →
      st2.dirs.length ≤ lim.maxPackagesPerModule) ∧
    (∀ (lim : Limits) (mp rv : String) (entries : List ZipEntry) (det : Option Detector)
      (oracle : String → GoEnv → EnvOutcome) (e : ExtractErr),
      phase1 lim mp rv entries {} = .error e →
      (extractPackagesFromZip lim mp rv entries det oracle).err = some e) ∧
    ((extractPackagesFromZip ⟨100, 2, 10, 100⟩ "github.com/m" "v1.0.0"
        [⟨"github.com/m@v1.0.0/d1/a.go", false, 5, ""⟩,
          ⟨"github.com/m@v1.0.0/d2/a.go", false, 5, ""⟩]
        (some ⟨[], true, fun _ => (true, [])⟩)
        (fun _ env => if env = ("linux", "amd64") then
          .loaded ⟨"p", "s", [], "h"⟩ else .empty)).err = none) ∧
    ((extractPackagesFromZip ⟨100, 2, 10, 100⟩ "github.com/m" "v1.0.0"
        [⟨"github.com/m@v1.0.0/d1/a.go", false, 5, ""⟩,
          ⟨"github.com/m@v1.0.0/d2/a.go", false, 5, ""⟩,
          ⟨"github.com/m@v1.0.0/d3/a.go", false, 5, ""⟩]
        (some ⟨[], true, fun _ => (true, [])⟩)
        (fun _ env => if env = ("linux", "amd64") then
          .loaded ⟨"p", "s", [], "h"⟩ else .empty)).err =
      some (.tooManyPackages
        "packages found in github.com/m exceed limit for maxPackagePerModule")) := by
  refine ⟨fun lim mp rv entries st st2 hle h =>
    phase1_dirs_le lim mp rv entries st st2 hle h, ?_, by decide, by decide⟩
  intro lim mp rv entries det oracle e h
  simp [extractPackagesFromZip, h]

/-- Witness for claim C2: the invariant and error propagation at the
concrete three-directory module of the counterexample input. -/
theorem claim_C2_amended_max_packages_witness :
    ([("d1", [⟨"github.com/m@v1.0.0/d1/a.go", false, 5, ""⟩]),
      ("d2", [⟨"github.com/m@v1.0.0/d2/a.go", false, 5, ""⟩])] :
        List (String × List ZipEntry)).length ≤ 2 ∧
    (extractPackagesFromZip ⟨100, 2, 10, 100⟩ "github.com/m" "v1.0.0"
        [⟨"github.com/m@v1.0.0/d1/a.go", false, 5, ""⟩,
          ⟨"github.com/m@v1.0.0/d2/a.go", false, 5, ""⟩,
          ⟨"github.com/m@v1.0.0/d3/a.go", false, 5, ""⟩]
        none (fun _ _ => .empty)).err =
      some (.tooManyPackages
        "packages found in github.com/m exceed limit for maxPackagePerModule") := by
  constructor
  · exact claim_C2_amended_max_packages.1 ⟨100, 2, 10, 100⟩ "github.com/m" "v1.0.0"
      [⟨"github.com/m@v1.0.0/d1/a.go", false, 5, ""⟩,
        ⟨"github.com/m@v1.0.0/d2/a.go", false, 5, ""⟩] {}
      { dirs := [("d1", [⟨"github.com/m@v1.0.0/d1/a.go", false, 5, ""⟩]),
                 ("d2", [⟨"github.com/m@v1.0.0/d2/a.go", false, 5, ""⟩])] }
      (by decide) (by decide)
  · exact claim_C2_amended_max_packages.2.1 ⟨100, 2, 10, 100⟩ "github.com/m" "v1.0.0"
      [⟨"github.com/m@v1.0.0/d1/a.go", false, 5, ""⟩,
        ⟨"github.com/m@v1.0.0/d2/a.go", false, 5, ""⟩,
        ⟨"github.com/m@v1.0.0/d3/a.go", false, 5, ""⟩]
      none (fun _ _ => .empty)
      (.tooManyPackages "packages found in github.com/m exceed limit for maxPackagePerModule")
      (by decide)


/-! ### Claim C3 -/

/-- A successful `findSome?` is witnessed by some list element. -/
theorem findSome_mem {α β : Type} (f : α → Option β) :
    ∀ (l : List α) (b : β), l.findSome? f = some b → ∃ a ∈ l, f a = some b := by
  intro l
  induction l with
  | nil => intro b h; cases h
  | cons a as ih =>
    intro b h
    rw [List.findSome?_cons] at h
    revert h
    cases hfa : f a with
    | some c =>
      intro h
      injection h with h2
      subst h2
      exact ⟨a, List.mem_cons_self a as, hfa⟩
    | none =>
      intro h
      obtain ⟨x, hx, hfx⟩ := ih b h
      exact ⟨x, List.mem_cons_of_mem a hx, hfx⟩

/-- Every error message produced by the element checker is nonempty. -/
theorem checkElemIP_ne_empty (elem : List Char) (m : String)
    (h : checkElemIP elem = some m) : m ≠ "" := by
  unfold checkElemIP at h
  dsimp only at h
  repeat' split at h
  all_goals try cases h
  all_goals decide

/-- Every error message produced by the import path checker is nonempty. -/
theorem checkImportPath_ne_empty (p : String) (m : String)
    (h : checkImportPath p = some m) : m ≠ "" := by
  unfold checkImportPath at h
  dsimp only at h
  repeat' split at h
  all_goals try cases h
  all_goals try decide
  obtain ⟨elem, _, helem⟩ := findSome_mem checkElemIP _ m h
  exact checkElemIP_ne_empty elem m helem

/-- The predicate claim C3 asserts of emitted states, weakened by the
exception the code actually exhibits: any status other than 200 and other
than `PackageBuildContextNotSupported` comes with a nonempty error. -/
def pvsErrPred (s : PackageVersionState) : Prop :=
  s.status ≠ 200 → s.status ≠ toStatus .packageBuildContextNotSupported → s.error ≠ ""

/-- A phase-1 step only appends states satisfying the error predicate. -/
theorem phase1Step_pvs_pred (lim : Limits) (mp rv : String) (st st2 : Phase1State)
    (f : ZipEntry) (h : phase1Step lim mp rv st f = .ok st2)
    (hst : ∀ s ∈ st.pvs, pvsErrPred s) : ∀ s ∈ st2.pvs, pvsErrPred s := by
  unfold phase1Step at h
  dsimp only at h
  repeat' split at h
  all_goals try cases h
  all_goals try exact hst
  · next msg hmsg =>
    intro s hs
    dsimp only at hs
    rcases List.mem_append.mp hs with h1 | h2
    · exact hst s h1
    · rw [List.mem_singleton.mp h2]
      intro _ _
      exact checkImportPath_ne_empty _ msg hmsg
  · intro s hs
    dsimp only at hs
    rcases List.mem_append.mp hs with h1 | h2
    · exact hst s h1
    · rw [List.mem_singleton.mp h2]
      intro _ _
      intro heq
      have hdata := congrArg String.data heq
      simp [String.data_append] at hdata

/-- Phase 1 only emits states satisfying the error predicate. -/
theorem phase1_pvs_pred (lim : Limits) (mp rv : String) (entries : List ZipEntry)
    (st st2 : Phase1State) (hst : ∀ s ∈ st.pvs, pvsErrPred s)
    (h : phase1 lim mp rv entries st = .ok st2) : ∀ s ∈ st2.pvs, pvsErrPred s := by
  induction entries generalizing st with
  | nil =>
    simp only [phase1] at h
    injection h with h2
    subst h2
    exact hst
  | cons f rest ih =>
    simp only [phase1] at h
    revert h
    cases hstep : phase1Step lim mp rv st f with
    | error e => intro h; cases h
    | ok stm =>
      intro h
      exact ih stm (phase1Step_pvs_pred lim mp rv st stm f hstep hst) h

/-- A bad-package result of `loadPackageWithBuildContext` can only come from
a bad-package outcome of the environment analysis. -/
theorem lpwbc_errBad (lim : Limits) (mp ip g1 g2 : String) (o : EnvOutcome) (m : String)
    (h : loadPackageWithBuildContext lim mp ip g1 g2 o = .errBad m) :
    o = .badPackage m := by
  unfold loadPackageWithBuildContext at h
  cases o with
  | badPackage msg =>
    dsimp only at h
    injection h with h2
    subst h2
    rfl
  | otherError msg => dsimp only at h; cases h
  | empty => dsimp only at h; cases h
  | loaded d =>
    dsimp only at h
    repeat' split at h
    all_goals cases h

/-- A bad-package failure of `loadPackageEnvs` carries the message of some
environment's bad-package outcome. -/
theorem loadPackageEnvs_failBad (lim : Limits) (mp ip : String)
    (oracle : GoEnv → EnvOutcome) (envs : List GoEnv) (m : String)
    (h : loadPackageEnvs lim mp ip oracle envs = .failBad m) :
    ∃ e ∈ envs, oracle e = .badPackage m := by
  induction envs with
  | nil => cases h
  | cons env rest ih =>
    simp only [loadPackageEnvs] at h
    revert h
    cases hl : loadPackageWithBuildContext lim mp ip env.1 env.2 (oracle env) with
    | pkgOk p => intro h; cases h
    | pkgTooLarge p => intro h; cases h
    | errBad msg =>
      intro h
      injection h with h2
      subst h2
      exact ⟨env, List.mem_cons_self env rest, lpwbc_errBad lim mp ip env.1 env.2 _ _ hl⟩
    | errOther msg => intro h; cases h
    | nothing =>
      intro h
      obtain ⟨e, he, hoe⟩ := ih h
      exact ⟨e, List.mem_cons_of_mem env he, hoe⟩

/-- Every state emitted by the phase-2 directory processing satisfies the
error predicate, provided the analysis oracle produces nonempty bad-package
messages (as the Go parser and build machinery do). -/
theorem processDir_pvs_pred (lim : Limits) (mp rv : String) (det : Option Detector)
    (oracle : String → GoEnv → EnvOutcome) (ip : String) (files : List ZipEntry)
    (pkg? : Option LegacyPackage) (s : PackageVersionState) (mark : Bool)
    (hmsg : ∀ ipath env, ∀ m : String, oracle ipath env = .badPackage m → m ≠ "")
    (h : processDir lim mp rv det oracle ip files = .emit pkg? s mark) :
    pvsErrPred s := by
  unfold processDir at h
  revert h
  cases hload : loadPackage lim mp ip (oracle ip) with
  | failOther msg => intro h; cases h
  | failBad msg =>
    intro h
    obtain ⟨e, _, hoe⟩ := loadPackageEnvs_failBad lim mp ip (oracle ip) goEnvs msg hload
    have hm : msg ≠ "" := hmsg ip e msg hoe
    dsimp only at h
    split at h <;> (injection h with h1 h2 h3; rw [← h2]; intro _ _; exact hm)
  | nothing =>
    intro h
    dsimp only at h
    split at h <;> (injection h with h1 h2 h3; rw [← h2]; simp [pvsErrPred, toStatus])
  | found p tooLarge =>
    intro h
    injection h with h1 h2 h3
    rw [← h2]
    cases tooLarge <;> simp [pvsErrPred, toStatus, docTooLargeErrMsg]

/-- Phase 2 preserves the error predicate over all emitted states. -/
theorem phase2_pvs_pred (lim : Limits) (mp rv : String) (det : Option Detector)
    (oracle : String → GoEnv → EnvOutcome) (dirs : List (String × List ZipEntry)) :
    ∀ (inc : List String) (pkgs : List LegacyPackage) (pvs : List PackageVersionState)
      (out : List LegacyPackage × List PackageVersionState),
      (∀ ipath env, ∀ m : String, oracle ipath env = .badPackage m → m ≠ "") →
      (∀ s ∈ pvs, pvsErrPred s) →
      phase2 lim mp rv det oracle dirs inc pkgs pvs = .ok out →
      ∀ s ∈ out.2, pvsErrPred s := by
  induction dirs with
  | nil =>
    intro inc pkgs pvs out hmsg hpvs h
    simp only [phase2] at h
    injection h with h2
    rw [← h2]
    exact hpvs
  | cons d rest ih =>
    intro inc pkgs pvs out hmsg hpvs h
    simp only [phase2] at h
    revert h
    split
    · intro h
      exact ih inc pkgs pvs out hmsg hpvs h
    · cases hpd : processDir lim mp rv det oracle d.1 d.2 with
      | abort msg => intro h; cases h
      | emit pkg? s mark =>
        intro h
        refine ih _ _ _ out hmsg ?_ h
        intro x hx
        rcases List.mem_append.mp hx with hx1 | hx2
        · exact hpvs x hx1
        · rw [List.mem_singleton.mp hx2]
          exact processDir_pvs_pred lim mp rv det oracle d.1 d.2 pkg? s mark hmsg hpd

/-- Counterexample to claim C3: a module with a package directory whose files
match no build environment emits a `PackageVersionState` whose status is not
200 and whose error is empty — the `PackageBuildContextNotSupported` branch
of phase 2 sets the status but never sets an error message. -/
theorem claim_C3_counterexample :
    (extractPackagesFromZip ⟨100, 10, 10, 100⟩ "github.com/m" "v1.0.0"
        [⟨"github.com/m@v1.0.0/bar/b.go", false, 5, ""⟩,
          ⟨"github.com/m@v1.0.0/baz/c.go", false, 5, ""⟩]
        (some ⟨[], true, fun _ => (true, [])⟩)
        (fun ip env => if ip = "bar" && env = ("linux", "amd64") then
          .loaded ⟨"bar", "s", [], "h"⟩ else .empty)).pvs =
      [⟨"github.com/m", "github.com/m/bar", "v1.0.0", 200, ""⟩,
        ⟨"github.com/m", "github.com/m/baz", "v1.0.0",
          toStatus .packageBuildContextNotSupported, ""⟩] ∧
    toStatus .packageBuildContextNotSupported ≠ 200 := by
  exact ⟨by decide, by decide⟩

/-- Claim C3 as amended: for every `PackageVersionState` emitted by an
ingestion (in phase 1 or phase 2), if its status is neither 200 nor
`PackageBuildContextNotSupported` then its error is nonempty; a state with
status `PackageBuildContextNotSupported` may carry an empty error (it does
whenever no build environment matches the directory's files).  The
hypothesis demands nonempty bad-package messages of the analysis oracle,
which abstracts the Go parser, whose error strings are nonempty. -/
theorem claim_C3_amended_status_error (lim : Limits) (mp rv : String)
    (entries : List ZipEntry) (det : Option Detector)
    (oracle : String → GoEnv → EnvOutcome)
    (hmsg : ∀ ipath env, ∀ m : String, oracle ipath env = .badPackage m → m ≠ "") :
    ∀ s ∈ (extractPackagesFromZip lim mp rv entries det oracle).pvs,
      s.status ≠ 200 → s.status ≠ toStatus .packageBuildContextNotSupported →
      s.error ≠ "" := by
  unfold extractPackagesFromZip
  cases h1 : phase1 lim mp rv entries {} with
  | error e => intro s hs; dsimp only at hs; cases hs
  | ok st =>
    have hp1 : ∀ s ∈ st.pvs, pvsErrPred s :=
      phase1_pvs_pred lim mp rv entries {} st (by intro s hs; cases hs) h1
    dsimp only
    cases h2 : phase2 lim mp rv det oracle st.dirs st.incompleteDirs [] st.pvs with
    | error e => intro s hs; dsimp only at hs; cases hs
    | ok out =>
      obtain ⟨pkgs, pvs⟩ := out
      have hp2 : ∀ s ∈ pvs, pvsErrPred s :=
        phase2_pvs_pred lim mp rv det oracle st.dirs st.incompleteDirs [] st.pvs
          (pkgs, pvs) hmsg hp1 h2
      dsimp only
      split
      · intro s hs
        exact hp2 s hs
      · intro s hs
        exact hp2 s hs

/-- Witness for claim C3: the amended invariant applied to the concrete
bad-import-path state emitted for a module holding a directory with a space
in its name — that state's error is nonempty. -/
theorem claim_C3_amended_status_error_witness :
    (⟨"github.com/m", "github.com/m/bad dir", "v1.0.0",
      toStatus .packageBadImportPath,
      "malformed import path: invalid char"⟩ : PackageVersionState).error ≠ "" :=
  claim_C3_amended_status_error ⟨100, 10, 10, 100⟩ "github.com/m" "v1.0.0"
    [⟨"github.com/m@v1.0.0/bad dir/a.go", false, 5, ""⟩,
      ⟨"github.com/m@v1.0.0/big/a.go", false, 101, ""⟩,
      ⟨"github.com/m@v1.0.0/bar/b.go", false, 5, ""⟩]
    (some ⟨[], true, fun _ => (true, [])⟩)
    (fun _ env => if env = ("linux", "amd64") then
      .loaded ⟨"bar", "s", [], "h"⟩ else .empty)
    (fun ipath env m h => by
      revert h
      dsimp only
      split <;> (intro h; cases h))
    ⟨"github.com/m", "github.com/m/bad dir", "v1.0.0",
      toStatus .packageBadImportPath, "malformed import path: invalid char"⟩
    (by decide) (by decide) (by decide)

/-! ### Claim C1 -/

/-- Appending a segment to a nonempty path adds a separator and the
segment. -/
theorem joinPath_append_single (l : List String) (x : String) (h : l ≠ []) :
    joinPath (l ++ [x]) = joinPath l ++ "/" ++ x := by
  induction l with
  | nil => exact absurd rfl h
  | cons a t ih =>
    cases t with
    | nil => simp [joinPath]
    | cons b t2 =>
      have hne : b :: t2 ≠ [] := by simp
      calc joinPath ((a :: b :: t2) ++ [x])
          = a ++ "/" ++ joinPath ((b :: t2) ++ [x]) := by simp [joinPath]
        _ = a ++ "/" ++ (joinPath (b :: t2) ++ "/" ++ x) := by rw [ih hne]
        _ = joinPath (a :: b :: t2) ++ "/" ++ x := by
            simp [joinPath, String.append_assoc]

/-- Taking one more segment strictly lengthens the joined prefix. -/
theorem joinPath_take_len_lt (segs : List String) (i : Nat) (h1 : 1 ≤ i)
    (h2 : i < segs.length) :
    (joinPath (segs.take i)).length < (joinPath (segs.take (i + 1))).length := by
  have hne : segs.take i ≠ [] := by
    have : (segs.take i).length = i := by
      rw [List.length_take]
      omega
    intro hcon
    rw [hcon] at this
    simp at this
    omega
  rw [List.take_succ, List.getElem?_eq_getElem h2]
  rw [show (some segs[i]).toList = [segs[i]] from rfl]
  rw [joinPath_append_single (segs.take i) segs[i] hne]
  rw [String.length_append, String.length_append]
  have hslash : ("/" : String).length = 1 := rfl
  rw [hslash]
  omega

/-- Longer prefixes join to strictly longer strings. -/
theorem joinPath_take_len_lt_of_lt (segs : List String) (i j : Nat) (h1 : 1 ≤ i)
    (hij : i < j) (hj : j ≤ segs.length) :
    (joinPath (segs.take i)).length < (joinPath (segs.take j)).length := by
  induction j with
  | zero => omega
  | succ j ih =>
    rcases Nat.lt_succ_iff_lt_or_eq.mp hij with hlt | heq
    · have hjlen : j < segs.length := by omega
      exact Nat.lt_trans (ih hlt (by omega))
        (joinPath_take_len_lt segs j (by omega) hjlen)
    · subst heq
      exact joinPath_take_len_lt segs i h1 (by omega)

/-- An ascending arithmetic range is pairwise increasing. -/
theorem pairwiseLtRange : ∀ (n s : Nat), List.Pairwise (· < ·) (List.range' s n) := by
  intro n
  induction n with
  | zero => intro s; simp
  | succ n ih =>
    intro s
    rw [List.range'_succ]
    refine List.Pairwise.cons ?_ (ih (s + 1))
    intro x hx
    have := List.mem_range'_1.mp hx
    omega

/-- A pairwise relation can be strengthened pointwise using membership. -/
theorem pairwiseImpOfMem {α : Type} {l : List α} {R S : α → α → Prop}
    (h : ∀ a ∈ l, ∀ b ∈ l, R a b → S a b) (hp : List.Pairwise R l) :
    List.Pairwise S l := by
  induction hp with
  | nil => exact List.Pairwise.nil
  | @cons a l2 ha hp2 ih =>
    refine List.Pairwise.cons ?_ (ih ?_)
    · intro b hb
      exact h a (List.mem_cons_self _ _) b (List.mem_cons_of_mem _ hb) (ha b hb)
    · intro x hx y hy hr
      exact h x (List.mem_cons_of_mem _ hx) y (List.mem_cons_of_mem _ hy) hr

/-- De-duplication produces a sublist of its input. -/
theorem dedupAux_sublist : ∀ (l seen : List String), List.Sublist (dedupAux seen l) l := by
  intro l
  induction l with
  | nil => intro seen; exact List.Sublist.refl []
  | cons a t ih =>
    intro seen
    unfold dedupAux
    split
    · exact (ih seen).trans (List.sublist_cons_self a t)
    · exact List.Sublist.cons₂ a (ih (a :: seen))

/-- The minimal candidate segment count is positive. -/
theorem candMinSegs_pos (p : String) : 1 ≤ candMinSegs p := by
  unfold candMinSegs
  split <;> omega

/-- Members of the candidate segment-count list lie between the minimum and
the number of segments of the full path. -/
theorem candKs_mem_bounds (p : String) (k : Nat) (h : k ∈ candKs p) :
    candMinSegs p ≤ k ∧ k ≤ (candSegs p).length := by
  unfold candKs at h
  rw [List.mem_reverse] at h
  have := List.mem_range'_1.mp h
  omega

/-- The untruncated candidate list is strictly decreasing in string length:
the prefixes appear from longest (most specific) to shortest. -/
theorem candidateModulePathsAll_pairwise (p : String) :
    List.Pairwise (fun a b : String => b.length < a.length)
      (candidateModulePathsAll p) := by
  have hks : List.Pairwise (fun a b : Nat => b < a) (candKs p) := by
    unfold candKs
    exact List.pairwise_reverse.mpr (pairwiseLtRange _ _)
  have hmap : List.Pairwise (fun a b : String => b.length < a.length)
      ((candKs p).map (fun k => joinPath ((candSegs p).take k))) := by
    rw [List.pairwise_map]
    refine pairwiseImpOfMem ?_ hks
    intro a ha b hb hba
    have hab := candKs_mem_bounds p a ha
    have hbb := candKs_mem_bounds p b hb
    have hmin := candMinSegs_pos p
    exact joinPath_take_len_lt_of_lt (candSegs p) b a (by omega) hba (by omega)
  exact hmap.sublist (dedupAux_sublist _ [])

/-- Claim C1 as amended: `candidateModulePaths` truncates the candidate
prefix sequence to at most `maxPathsToFetch` entries keeping the SHORTEST
prefixes — the result is the `maxPathsToFetch` least specific candidate
paths, still ordered from most to least specific.  Stated as: the output has
at most `maxPathsToFetch` entries, is a suffix of the untruncated
longest-to-shortest candidate list, is ordered by strictly decreasing
length, and every candidate dropped by the truncation is longer (more
specific) than every candidate kept. -/
theorem claim_C1_amended_truncation (fullPath : String) (maxPathsToFetch : Nat) :
    (candidateModulePaths maxPathsToFetch fullPath).length ≤ maxPathsToFetch ∧
    (candidateModulePaths maxPathsToFetch fullPath) <:+
      candidateModulePathsAll fullPath ∧
    List.Pairwise (fun a b : String => b.length < a.length)
      (candidateModulePaths maxPathsToFetch fullPath) ∧
    (∀ s ∈ candidateModulePathsAll fullPath,
      s ∉ candidateModulePaths maxPathsToFetch fullPath →
      ∀ t ∈ candidateModulePaths maxPathsToFetch fullPath, t.length < s.length) := by
  have hpw := candidateModulePathsAll_pairwise fullPath
  simp only [candidateModulePaths]
  split
  · next hgt =>
    refine ⟨?_, ?_, ?_, ?_⟩
    · rw [List.length_drop]
      omega
    · exact List.drop_suffix _ _
    · exact hpw.sublist (List.drop_sublist _ _)
    · intro s hs hns t ht
      set all := candidateModulePathsAll fullPath with hall
      set k := all.length - maxPathsToFetch with hk
      have hsplit : all.take k ++ all.drop k = all := List.take_append_drop k all
      have hstake : s ∈ all.take k := by
        rcases List.mem_append.mp (by rw [hsplit]; exact hs) with h1 | h2
        · exact h1
        · exact absurd h2 hns
      have hpw2 : List.Pairwise (fun a b : String => b.length < a.length)
          (all.take k ++ all.drop k) := by rw [hsplit]; exact hpw
      exact (List.pairwise_append.mp hpw2).2.2 s hstake t ht
  · next hle =>
    refine ⟨by omega, List.suffix_refl _, hpw, ?_⟩
    intro s hs hns t ht
    exact absurd hs hns

/-- Counterexample to claim C1: at the input of `TestCandidateModulePaths`
(a well-known-host path with nine segments past the three-segment root and
`maxPathsToFetch = 7`), the output is the seven SHORTEST candidate prefixes;
the full path itself — the longest, most specific candidate, which the claim
says is kept first — is a candidate but is absent from the output. -/
theorem claim_C1_counterexample :
    candidateModulePaths 7 "github.com/valid/module_name/1/2/3/4/5/6/7/8/9" =
      ["github.com/valid/module_name/1/2/3/4/5/6",
        "github.com/valid/module_name/1/2/3/4/5",
        "github.com/valid/module_name/1/2/3/4",
        "github.com/valid/module_name/1/2/3",
        "github.com/valid/module_name/1/2",
        "github.com/valid/module_name/1",
        "github.com/valid/module_name"] ∧
    "github.com/valid/module_name/1/2/3/4/5/6/7/8/9" ∈
      candidateModulePathsAll "github.com/valid/module_name/1/2/3/4/5/6/7/8/9" ∧
    "github.com/valid/module_name/1/2/3/4/5/6/7/8/9" ∉
      candidateModulePaths 7 "github.com/valid/module_name/1/2/3/4/5/6/7/8/9" := by
  exact ⟨by decide, by decide, by decide⟩

/-- Witness for claim C1: the amended truncation bound evaluated at the
two-candidate custom path and at the long well-known-host path. -/
theorem claim_C1_amended_truncation_witness :
    (candidateModulePaths 7 "my.module/foo").length ≤ 7 ∧
    (candidateModulePaths 7 "github.com/valid/module_name/1/2/3/4/5/6/7/8/9") <:+
      candidateModulePathsAll "github.com/valid/module_name/1/2/3/4/5/6/7/8/9" :=
  ⟨(claim_C1_amended_truncation "my.module/foo" 7).1,
    (claim_C1_amended_truncation "github.com/valid/module_name/1/2/3/4/5/6/7/8/9" 7).2.1⟩

end Pkgsite
